import Mathlib

/-!
A shallow embedding of the CHIP-8 virtual-machine core of the vm-tutorial
repository, covering:

* `src/core/src/public/core/spec.h` — the instruction decoder, the data-size
  and initial-value constants and the `StepResult` enum;
* `src/core/src/public/core/impl.h` — the guest state owned by
  `chip8::ImplementationInterface`, its `Reset` routine and the public
  setters;
* `src/core/src/private/impl_interpreter.cpp` — the execution engine
  (`InterpreterImplementation::Step`);
* `src/core/src/public/core/vm_instance.h` and
  `src/core/src/private/vm_instance.cpp` — the orchestrator
  (`chip8::VMInstance`): breakpoints, timer cadence, timing configuration,
  program loading and the step-debugging helpers.

Modelling conventions:

* Machine integers are `Nat` (and `Int` for the `ptrdiff_t` stack pointer).
  A store into an 8-bit field truncates modulo 256 exactly as the C
  conversion to `uint_fast8_t` does on the targeted platforms, where
  `uint_fast8_t` is 8 bits wide (the source's own masking comments assume
  this).  Stores into `uint_fast16_t` stack slots truncate modulo 2^16 and
  stores into the `unsigned int` index register modulo 2^32.
* An out-of-range array access is undefined behavior in the C++ source;
  the model reads a default value (0 / released) and silently drops the
  write.  No confirmed theorem depends on this choice; it only shows up
  where the source itself has no bound check.
* The `RND` instruction draws from `std::uniform_int_distribution<>(0, 255)`;
  the drawn value is passed in as an explicit `rand` argument.
* Host callbacks (screen update, tone, logging) have no effect on guest
  state and are not modelled; the edge-triggered `is_playing_tone_` flag is
  kept because the orchestrator stores it.
* `SetTiming` performs `double` arithmetic in the source; it is modelled
  over `Rat`.  Every concrete input used in a theorem below is exact in
  binary floating point, so the rational results coincide with the
  `double` results there.
-/

namespace chip8

/-- `chip8::StepResult` (spec.h), together with the orchestrator-level
results `kBreakpointReached`, `kNoSubroutine` and `kNotInSubroutine` that
`vm_instance.cpp` returns through the same enum. -/
inductive StepResult where
  | kSuccess
  | kHaltUntilKeyPress
  | kInvalidMemoryLocation
  | kInvalidInstruction
  | kInvalidKey
  | kInvalidSpriteLocation
  | kStackUnderflow
  | kStackOverflow
  | kBreakpointReached
  | kNoSubroutine
  | kNotInSubroutine
  deriving DecidableEq

/-- `chip8::pixel::kWhite` (spec.h): BGRA32 value of a lit pixel. -/
def kWhite : Nat := 0xFFFFFF

/-- `chip8::pixel::kBlack` (spec.h): BGRA32 value of an unlit pixel. -/
def kBlack : Nat := 0x000000

/-- `chip8::instruction_decoders::GetGroup` (spec.h): `instruction >> 12`. -/
def GetGroup (instruction : Nat) : Nat := instruction >>> 12

/-- `chip8::instruction_decoders::GetAddress` (spec.h): `instruction & 0xFFF`. -/
def GetAddress (instruction : Nat) : Nat := instruction &&& 0xFFF

/-- `chip8::instruction_decoders::GetNibble` (spec.h): `instruction & 0xF`. -/
def GetNibble (instruction : Nat) : Nat := instruction &&& 0xF

/-- `chip8::instruction_decoders::GetX` (spec.h): `(instruction >> 8) & 0x0F`. -/
def GetX (instruction : Nat) : Nat := (instruction >>> 8) &&& 0x0F

/-- `chip8::instruction_decoders::GetY` (spec.h): `(instruction & 0xFF) >> 4`. -/
def GetY (instruction : Nat) : Nat := (instruction &&& 0xFF) >>> 4

/-- `chip8::instruction_decoders::GetByte` (spec.h): `instruction & 0xFF`. -/
def GetByte (instruction : Nat) : Nat := instruction &&& 0xFF

/-- `chip8::Instruction` (spec.h): the decoded fields of a 16-bit
instruction word. -/
structure Instruction where
  group_ : Nat
  x_ : Nat
  y_ : Nat
  address_ : Nat
  byte_ : Nat
  nibble_ : Nat
  value_ : Nat

/-- The `chip8::Instruction` constructor (spec.h): every field is computed
by the corresponding decoder. -/
def Instruction.ofValue (value : Nat) : Instruction :=
  ⟨GetGroup value, GetX value, GetY value, GetAddress value, GetByte value,
   GetNibble value, value⟩

/-- The guest state owned by `chip8::ImplementationInterface` (impl.h),
including the private halt flag and key destination, plus the
`next_program_counter_` bookkeeping of `InterpreterImplementation` which is
returned explicitly by `dispatch` below instead of being stored. -/
structure ImplementationInterface where
  V_ : Fin 16 → Nat
  stack_ : Fin 16 → Nat
  memory_ : Fin 4096 → Nat
  framebuffer_ : Fin 2048 → Nat
  keypad_ : Fin 16 → Bool
  program_counter_ : Nat
  stack_pointer_ : Int
  delay_timer_ : Nat
  sound_timer_ : Nat
  I_ : Nat
  halted_until_key_press_ : Bool
  key_press_dest_ : Nat

/-- Read of `V_[i]`.  Indices produced by the decoder are below 16; an
out-of-range index would be undefined behavior in the source and reads 0
here. -/
def readV (s : ImplementationInterface) (i : Nat) : Nat :=
  if h : i < 16 then s.V_ ⟨i, h⟩ else 0

/-- Store into `V_[i]`: the conversion to `uint_fast8_t` truncates the
value modulo 256.  A store through an out-of-range index (undefined
behavior in the source) is dropped. -/
def writeV (s : ImplementationInterface) (i : Nat) (v : Nat) :
    ImplementationInterface :=
  {s with V_ := fun j => if j.val = i then v % 256 else s.V_ j}

/-- Read of `memory_[a]`; an out-of-range read (undefined behavior in the
source) yields 0. -/
def readMem (s : ImplementationInterface) (a : Nat) : Nat :=
  if h : a < 4096 then s.memory_ ⟨a, h⟩ else 0

/-- Store into `memory_[a]`, truncating modulo 256; an out-of-range write
(undefined behavior in the source) is dropped. -/
def writeMem (s : ImplementationInterface) (a : Nat) (v : Nat) :
    ImplementationInterface :=
  {s with memory_ := fun j => if j.val = a then v % 256 else s.memory_ j}

/-- Read of `framebuffer_[p]`; out of range reads 0. -/
def readFB (s : ImplementationInterface) (p : Nat) : Nat :=
  if h : p < 2048 then s.framebuffer_ ⟨p, h⟩ else 0

/-- Store into `framebuffer_[p]` (a `uint32_t`), truncating modulo 2^32;
out of range is dropped. -/
def writeFB (s : ImplementationInterface) (p : Nat) (v : Nat) :
    ImplementationInterface :=
  {s with framebuffer_ := fun j => if j.val = p then v % 4294967296 else s.framebuffer_ j}

/-- Read of `stack_[i]` through the `ptrdiff_t` stack pointer; out of
range (undefined behavior in the source) reads 0. -/
def readStack (s : ImplementationInterface) (i : Int) : Nat :=
  if h : 0 ≤ i ∧ i < 16 then s.stack_ ⟨i.toNat, by omega⟩ else 0

/-- Store into `stack_[i]` (a `uint_fast16_t`), truncating modulo 2^16;
out of range is dropped. -/
def writeStack (s : ImplementationInterface) (i : Int) (v : Nat) :
    ImplementationInterface :=
  {s with stack_ := fun j => if (j.val : Int) = i then v % 65536 else s.stack_ j}

/-- Read of `keypad_[k]`; out of range reads released (`false`). -/
def readKey (s : ImplementationInterface) (k : Nat) : Bool :=
  if h : k < 16 then s.keypad_ ⟨k, h⟩ else false

/-- `chip8::initial_values::kFontSet` (spec.h): 80 bytes, 5 per glyph. -/
def kFontSet : List Nat :=
  [0xF0, 0x90, 0x90, 0x90, 0xF0,
   0x20, 0x60, 0x20, 0x20, 0x70,
   0xF0, 0x10, 0xF0, 0x80, 0xF0,
   0xF0, 0x10, 0xF0, 0x10, 0xF0,
   0x90, 0x90, 0xF0, 0x10, 0x10,
   0xF0, 0x80, 0xF0, 0x10, 0xF0,
   0xF0, 0x80, 0xF0, 0x90, 0xF0,
   0xF0, 0x10, 0x20, 0x40, 0x40,
   0xF0, 0x90, 0xF0, 0x90, 0xF0,
   0xF0, 0x90, 0xF0, 0x10, 0xF0,
   0xF0, 0x90, 0xF0, 0x90, 0x90,
   0xE0, 0x90, 0xE0, 0x90, 0xE0,
   0xF0, 0x80, 0x80, 0x80, 0xF0,
   0xE0, 0x90, 0x90, 0x90, 0xE0,
   0xF0, 0x80, 0xF0, 0x80, 0xF0,
   0xF0, 0x80, 0xF0, 0x80, 0x80]

/-- `ImplementationInterface::Reset` (impl.h): clears framebuffer, stack,
keypad, general registers, fills memory with 0 and copies the font set to
its start, and resets the named registers to their initial values.
`key_press_dest_` is the one member `Reset` does not touch. -/
def ImplementationInterface.Reset (s : ImplementationInterface) :
    ImplementationInterface :=
  { V_ := fun _ => 0
    stack_ := fun _ => 0
    memory_ := fun i => kFontSet.getD i.val 0
    framebuffer_ := fun _ => kBlack
    keypad_ := fun _ => false
    program_counter_ := 0x200
    stack_pointer_ := -1
    delay_timer_ := 0
    sound_timer_ := 0
    I_ := 0
    halted_until_key_press_ := false
    key_press_dest_ := s.key_press_dest_ }

/-- The state built by the `ImplementationInterface` constructor, which
calls `Reset()` on indeterminate members.  `key_press_dest_` is left
indeterminate by `Reset`; the model picks 0. -/
def initImpl : ImplementationInterface :=
  ImplementationInterface.Reset
    ⟨fun _ => 0, fun _ => 0, fun _ => 0, fun _ => 0, fun _ => false,
     0, 0, 0, 0, 0, false, 0⟩

/-- `ImplementationInterface::SetProgramCounter` (impl.h): rejects any new
program counter above `data_limits::kProgramCounter = 4094`. -/
def SetProgramCounter (s : ImplementationInterface) (new_program_counter : Nat) :
    Bool × ImplementationInterface :=
  if 4094 < new_program_counter then (false, s)
  else (true, {s with program_counter_ := new_program_counter})

/-- `ImplementationInterface::SetDelayTimerValue` (impl.h): stores the
value masked with 0xFF. -/
def SetDelayTimerValue (s : ImplementationInterface) (v : Nat) :
    ImplementationInterface :=
  {s with delay_timer_ := v % 256}

/-- `InterpreterImplementation::FetchAndDecodeInstruction`
(impl_interpreter.cpp): big-endian fetch of the two bytes at the program
counter.  A program counter above 4094 makes the fetch undefined behavior
in the source (see the comment on the source function); here it reads 0s. -/
def FetchAndDecodeInstruction (s : ImplementationInterface) : Instruction :=
  Instruction.ofValue
    ((readMem s s.program_counter_ <<< 8) ||| readMem s (s.program_counter_ + 1))

/-- The result of the int-promoted subtraction `a - b` stored back into an
8-bit register: reduction of the possibly negative difference modulo 256. -/
def sub8 (a b : Nat) : Nat := (((a : Int) - (b : Int)) % 256).toNat

/-- `InterpreterImplementation` framebuffer indexing
(`GetPixelIndex(x, y) = y * kWidth + x` with `kWidth = 64`), together with
one iteration of the DRW inner (column) loop, impl_interpreter.cpp lines
229–241: test bit `0x80 >> x` of the sprite line and XOR the pixel at
`((Vx + x) % 64, y_pos)`, setting `VF` on a white-to-black transition.
`Vx` is a reference into `V_`, so it is re-read from the current state at
every column. -/
def drawColumn (s : ImplementationInterface) (xIdx line y_pos x : Nat) :
    ImplementationInterface :=
  let x_pos := (readV s xIdx + x) % 64
  let pixel_location := y_pos * 64 + x_pos
  if line &&& (0x80 >>> x) ≠ 0 then
    if readFB s pixel_location = kWhite then
      writeV (writeFB s pixel_location kBlack) 15 1
    else
      writeFB s pixel_location kWhite
  else s

/-- The DRW inner loop over the 8 columns (`for (auto x = 0; x < 8; x++)`),
as a count-down/count-up recursion: `rem` columns remain, `x` is the next
column index.  Entered with `rem = 8`, `x = 0`. -/
def drawColumns (xIdx line y_pos : Nat) :
    Nat → Nat → ImplementationInterface → ImplementationInterface
  | 0, _, s => s
  | rem + 1, x, s => drawColumns xIdx line y_pos rem (x + 1) (drawColumn s xIdx line y_pos x)

/-- The DRW outer loop over sprite rows (impl_interpreter.cpp lines
218–242): before reading row `y`, fault `kInvalidSpriteLocation` if
`I_ + y` reaches the memory size; otherwise XOR the row's 8 pixels and
continue.  `rem` rows remain, `y` is the next row index; entered with
`rem = nibble`, `y = 0`.  `Vy` is a reference, so the row coordinate is
re-read from the current state at every row. -/
def drawRows (xIdx yIdx : Nat) :
    Nat → Nat → ImplementationInterface → StepResult × ImplementationInterface
  | 0, _, s => (.kSuccess, s)
  | rem + 1, y, s =>
    if 4096 ≤ s.I_ + y then (.kInvalidSpriteLocation, s)
    else
      let sprite_line := readMem s (s.I_ + y)
      let y_pos := (readV s yIdx + y) % 32
      drawRows xIdx yIdx rem (y + 1) (drawColumns xIdx sprite_line y_pos 8 0 s)

/-- The `LD [I], Vx` handler (impl_interpreter.cpp lines 336–340):
`std::copy(V_.cbegin(), V_.cbegin() + x + 1, memory_.begin() + I_)`.
There is no bound check in the source; a copy that runs past the end of
`memory_` is undefined behavior there and its out-of-range writes are
dropped here.  `rem` registers remain to copy, `j` is the next index;
entered with `rem = x + 1`, `j = 0`. -/
def copyRegistersToMemory :
    Nat → Nat → ImplementationInterface → ImplementationInterface
  | 0, _, s => s
  | rem + 1, j, s => copyRegistersToMemory rem (j + 1) (writeMem s (s.I_ + j) (readV s j))

/-- The `LD Vx, [I]` handler (impl_interpreter.cpp lines 342–345):
`std::copy(memory_.cbegin() + I_, memory_.cbegin() + I_ + x + 1, V_.begin())`.
No bound check in the source; out-of-range reads (undefined behavior
there) yield 0 here. -/
def copyMemoryToRegisters :
    Nat → Nat → ImplementationInterface → ImplementationInterface
  | 0, _, s => s
  | rem + 1, j, s => copyMemoryToRegisters rem (j + 1) (writeV s j (readMem s (s.I_ + j)))

/-- `InterpreterImplementation::ResetFramebuffer` (impl.h). -/
def ResetFramebuffer (s : ImplementationInterface) : ImplementationInterface :=
  {s with framebuffer_ := fun _ => kBlack}

/-- The `case chip8::instruction_groups::kControlFlowAndScreen` block of
`InterpreterImplementation::Step` (impl_interpreter.cpp lines 61–84): CLS,
RET, or an invalid instruction. -/
def execControlFlowAndScreen (i : Instruction) (s : ImplementationInterface) :
    StepResult × Nat × ImplementationInterface :=
  if i.byte_ = 0xE0 then (.kSuccess, s.program_counter_ + 2, ResetFramebuffer s)
  else if i.byte_ = 0xEE then
    if s.stack_pointer_ < 0 then (.kStackUnderflow, s.program_counter_ + 2, s)
    else
      (.kSuccess, readStack s s.stack_pointer_,
       {s with stack_pointer_ := s.stack_pointer_ - 1})
  else (.kInvalidInstruction, s.program_counter_ + 2, s)

/-- The `case chip8::instruction_groups::kMath` block (impl_interpreter.cpp
lines 131–197).  `Vx`/`Vy` are references into `V_`; the handlers that
write `VF` before using `Vx`/`Vy` again (`SUB`, `SHR`, `SUBN`, `SHL`)
re-read the registers from the state holding the new flag, which is what
the aliasing references do when `x` or `y` is 15. -/
def execMath (i : Instruction) (s : ImplementationInterface) :
    StepResult × Nat × ImplementationInterface :=
  let Vx := readV s i.x_
  let Vy := readV s i.y_
  let npc := s.program_counter_ + 2
  if i.nibble_ = 0x0 then (.kSuccess, npc, writeV s i.x_ Vy)
  else if i.nibble_ = 0x1 then (.kSuccess, npc, writeV s i.x_ (Vx ||| Vy))
  else if i.nibble_ = 0x2 then (.kSuccess, npc, writeV s i.x_ (Vx &&& Vy))
  else if i.nibble_ = 0x3 then (.kSuccess, npc, writeV s i.x_ (Vx ^^^ Vy))
  else if i.nibble_ = 0x4 then
    (.kSuccess, npc,
     writeV (writeV s 15 (if 0xFF < Vx + Vy then 1 else 0)) i.x_ ((Vx + Vy) % 256))
  else if i.nibble_ = 0x5 then
    (.kSuccess, npc,
     writeV (writeV s 15 (if Vy < Vx then 1 else 0)) i.x_
       (sub8 (readV (writeV s 15 (if Vy < Vx then 1 else 0)) i.x_)
         (readV (writeV s 15 (if Vy < Vx then 1 else 0)) i.y_)))
  else if i.nibble_ = 0x6 then
    (.kSuccess, npc,
     writeV (writeV s 15 (Vx &&& 1)) i.x_
       (readV (writeV s 15 (Vx &&& 1)) i.x_ >>> 1))
  else if i.nibble_ = 0x7 then
    (.kSuccess, npc,
     writeV (writeV s 15 (if Vx < Vy then 1 else 0)) i.x_
       (sub8 (readV (writeV s 15 (if Vx < Vy then 1 else 0)) i.y_)
         (readV (writeV s 15 (if Vx < Vy then 1 else 0)) i.x_)))
  else if i.nibble_ = 0xE then
    (.kSuccess, npc,
     writeV (writeV s 15 (if Vx &&& 0x80 ≠ 0 then 1 else 0)) i.x_
       (readV (writeV s 15 (if Vx &&& 0x80 ≠ 0 then 1 else 0)) i.x_ <<< 1))
  else (.kInvalidInstruction, npc, s)

/-- The `case chip8::ungrouped_instructions::kDRW` block
(impl_interpreter.cpp lines 215–243): `VF = 0`, then the row loop. -/
def execDraw (i : Instruction) (s : ImplementationInterface) :
    StepResult × Nat × ImplementationInterface :=
  ((drawRows i.x_ i.y_ i.nibble_ 0 (writeV s 15 0)).1, s.program_counter_ + 2,
   (drawRows i.x_ i.y_ i.nibble_ 0 (writeV s 15 0)).2)

/-- The `case chip8::instruction_groups::kKeyboardControlFlow` block
(impl_interpreter.cpp lines 245–277): SKP, SKNP, or invalid. -/
def execKeyboardControlFlow (i : Instruction) (s : ImplementationInterface) :
    StepResult × Nat × ImplementationInterface :=
  let Vx := readV s i.x_
  let npc := s.program_counter_ + 2
  if i.byte_ = 0x9E then
    if 16 ≤ Vx then (.kInvalidKey, npc, s)
    else (.kSuccess, if readKey s Vx = true then s.program_counter_ + 4 else npc, s)
  else if i.byte_ = 0xA1 then
    if 16 ≤ Vx then (.kInvalidKey, npc, s)
    else (.kSuccess, if readKey s Vx = false then s.program_counter_ + 4 else npc, s)
  else (.kInvalidInstruction, npc, s)

/-- The `case chip8::instruction_groups::kTimerAndMemoryControl` block
(impl_interpreter.cpp lines 279–352). -/
def execTimerAndMemoryControl (i : Instruction) (s : ImplementationInterface) :
    StepResult × Nat × ImplementationInterface :=
  let Vx := readV s i.x_
  let npc := s.program_counter_ + 2
  if i.byte_ = 0x07 then (.kSuccess, npc, writeV s i.x_ s.delay_timer_)
  else if i.byte_ = 0x0A then
    (.kHaltUntilKeyPress, npc,
     {s with halted_until_key_press_ := true, key_press_dest_ := i.x_})
  else if i.byte_ = 0x15 then (.kSuccess, npc, {s with delay_timer_ := Vx % 256})
  else if i.byte_ = 0x18 then (.kSuccess, npc, {s with sound_timer_ := Vx % 256})
  else if i.byte_ = 0x1E then
    (.kSuccess, npc, {s with I_ := (s.I_ + Vx) % 4294967296})
  else if i.byte_ = 0x29 then
    (.kSuccess, npc, {s with I_ := Vx * 5 % 4294967296})
  else if i.byte_ = 0x33 then
    if 4096 ≤ s.I_ + 2 then (.kInvalidMemoryLocation, npc, s)
    else
      (.kSuccess, npc,
       writeMem (writeMem (writeMem s s.I_ (Vx / 100 % 10)) (s.I_ + 1) (Vx / 10 % 10))
         (s.I_ + 2) (Vx % 10))
  else if i.byte_ = 0x55 then (.kSuccess, npc, copyRegistersToMemory (i.x_ + 1) 0 s)
  else if i.byte_ = 0x65 then (.kSuccess, npc, copyMemoryToRegisters (i.x_ + 1) 0 s)
  else (.kInvalidInstruction, npc, s)

/-- The switch on `instruction.group_` in `InterpreterImplementation::Step`
(impl_interpreter.cpp lines 60–357), over an already decoded instruction:
each case either mutates the state, overrides the tentative
`next_program_counter_ = pc + 2`, or reports a fault. -/
def exec (rand : Nat) (i : Instruction) (s : ImplementationInterface) :
    StepResult × Nat × ImplementationInterface :=
  if i.group_ = 0x0 then execControlFlowAndScreen i s
  else if i.group_ = 0x1 then (.kSuccess, i.address_, s)
  else if i.group_ = 0x2 then
    if s.stack_pointer_ < 15 then
      (.kSuccess, i.address_,
       writeStack {s with stack_pointer_ := s.stack_pointer_ + 1}
         (s.stack_pointer_ + 1) (s.program_counter_ + 2))
    else (.kStackOverflow, s.program_counter_ + 2, s)
  else if i.group_ = 0x3 then
    (.kSuccess,
     if readV s i.x_ = i.byte_ then s.program_counter_ + 4 else s.program_counter_ + 2, s)
  else if i.group_ = 0x4 then
    (.kSuccess,
     if readV s i.x_ ≠ i.byte_ then s.program_counter_ + 4 else s.program_counter_ + 2, s)
  else if i.group_ = 0x5 then
    (.kSuccess,
     if readV s i.x_ = readV s i.y_ then s.program_counter_ + 4 else s.program_counter_ + 2, s)
  else if i.group_ = 0x6 then
    (.kSuccess, s.program_counter_ + 2, writeV s i.x_ i.byte_)
  else if i.group_ = 0x7 then
    (.kSuccess, s.program_counter_ + 2, writeV s i.x_ (readV s i.x_ + i.byte_))
  else if i.group_ = 0x8 then execMath i s
  else if i.group_ = 0x9 then
    (.kSuccess,
     if readV s i.x_ ≠ readV s i.y_ then s.program_counter_ + 4 else s.program_counter_ + 2, s)
  else if i.group_ = 0xA then
    (.kSuccess, s.program_counter_ + 2, {s with I_ := i.address_ % 4294967296})
  else if i.group_ = 0xB then (.kSuccess, readV s 0 + i.address_, s)
  else if i.group_ = 0xC then
    (.kSuccess, s.program_counter_ + 2, writeV s i.x_ (rand &&& i.byte_))
  else if i.group_ = 0xD then execDraw i s
  else if i.group_ = 0xE then execKeyboardControlFlow i s
  else if i.group_ = 0xF then execTimerAndMemoryControl i s
  else (.kInvalidInstruction, s.program_counter_ + 2, s)

/-- The body of `InterpreterImplementation::Step` after the halt check:
fetch and decode once, then dispatch.  Returns the step result, the final
`next_program_counter_`, and the state mutated by the handler; the program
counter itself is only assigned at the end of `Step`. -/
def dispatch (rand : Nat) (s : ImplementationInterface) :
    StepResult × Nat × ImplementationInterface :=
  exec rand (FetchAndDecodeInstruction s) s

/-- `InterpreterImplementation::Step` (impl_interpreter.cpp lines 47–365):
return `kHaltUntilKeyPress` immediately when halted; otherwise run the
dispatched handler and, exactly when the result is `kSuccess` or
`kHaltUntilKeyPress`, assign the computed `next_program_counter_` to the
program counter (lines 359–364). -/
def InterpreterImplementation.Step (rand : Nat) (s : ImplementationInterface) :
    StepResult × ImplementationInterface :=
  if s.halted_until_key_press_ then (.kHaltUntilKeyPress, s)
  else if (dispatch rand s).1 = .kSuccess ∨ (dispatch rand s).1 = .kHaltUntilKeyPress then
    ((dispatch rand s).1,
     {(dispatch rand s).2.2 with program_counter_ := ((dispatch rand s).2.1)})
  else ((dispatch rand s).1, (dispatch rand s).2.2)

/-- `VMInstance::BreakpointFlags` (vm_instance.h lines 34–41): a scoped
enum whose declared order puts `kClearAfterTrigger` first. -/
inductive BreakpointFlags where
  | kClearAfterTrigger
  | kPreserve
  deriving DecidableEq

/-- The underlying integer value of the scoped enum, i.e. the declaration
order in vm_instance.h: `kClearAfterTrigger = 0`, `kPreserve = 1`. -/
def BreakpointFlags.toNat : BreakpointFlags → Nat
  | .kClearAfterTrigger => 0
  | .kPreserve => 1

/-- The orchestrator state of `chip8::VMInstance` (vm_instance.h).
`BreakpointInfo` is the pair of address and flag; the breakpoint vector
keeps insertion order.  The tracing file handle and the host callbacks are
I/O-only and carry no guest-visible state. -/
structure VMInstance where
  impl_ : ImplementationInterface
  breakpoints_ : List (Nat × BreakpointFlags)
  number_of_steps_per_frame_ : Nat
  instructions_per_sec_ : Nat
  target_frame_rate_ : Nat
  number_of_steps_executed_ : Nat
  is_playing_tone_ : Bool
  max_frame_time_ : Rat
  frame_rate_ : Rat

/-- `VMInstance::DecrementTimers` (vm_instance.cpp lines 64–90): if the
sound timer is positive, fire the tone callback once per activation
(tracked by `is_playing_tone_`) and decrement it; otherwise clear the
flag.  Then decrement the delay timer if positive. -/
def VMInstance.DecrementTimers (s : VMInstance) : VMInstance :=
  let s₁ :=
    if 0 < s.impl_.sound_timer_ then
      let s' := if ¬s.is_playing_tone_ then {s with is_playing_tone_ := true} else s
      {s' with impl_ := {s'.impl_ with sound_timer_ := s'.impl_.sound_timer_ - 1}}
    else {s with is_playing_tone_ := false}
  if 0 < s₁.impl_.delay_timer_ then
    {s₁ with impl_ := {s₁.impl_ with delay_timer_ := s₁.impl_.delay_timer_ - 1}}
  else s₁

/-- `VMInstance::CheckTimers` (vm_instance.cpp lines 54–62): with the
hard-coded constant `kMaxTimerSteps = 7`, decrement the timers exactly
when `number_of_steps_executed_ % 8 == 7`. -/
def VMInstance.CheckTimers (s : VMInstance) : VMInstance :=
  if s.number_of_steps_executed_ % 8 = 7 then s.DecrementTimers else s

/-- `VMInstance::Reset` (vm_instance.cpp lines 92–98). -/
def VMInstance.Reset (s : VMInstance) : VMInstance :=
  {s with impl_ := s.impl_.Reset, number_of_steps_executed_ := 0,
          is_playing_tone_ := false}



/-- `VMInstance::SetTiming` (vm_instance.cpp lines 100–128).  The source
computes `steps_per_frame = instructions_per_second / desired_frame_rate`
in `double` arithmetic, compares it with 1.0, and truncates it (and the
frame rate) with `static_cast<unsigned int>`.  The model works with the
exact value of the quotient: for a positive `desired_frame_rate` with
numerator `num` and denominator `den`, the quotient is
`instructions_per_second * den / num` as a fraction, so its comparison
with 1 and its truncation toward zero are exactly the integer comparison
and integer division written below.  (Every concrete rate used in a
theorem in this file is exact in binary floating point, so the `double`
results coincide.) -/
def VMInstance.SetTiming (s : VMInstance) (instructions_per_second : Nat)
    (desired_frame_rate : Rat) : Bool × VMInstance :=
  if instructions_per_second = 0 ∨ desired_frame_rate ≤ 0 then (false, s)
  else
    if instructions_per_second * desired_frame_rate.den <
        desired_frame_rate.num.toNat then (false, s)
    else
      (true,
       {s with target_frame_rate_ := desired_frame_rate.num.toNat / desired_frame_rate.den
               number_of_steps_per_frame_ :=
                 instructions_per_second * desired_frame_rate.den /
                   desired_frame_rate.num.toNat
               max_frame_time_ := 1000 / desired_frame_rate
               instructions_per_sec_ := instructions_per_second
               frame_rate_ := desired_frame_rate})

/-- `VMInstance::LoadProgram` (vm_instance.h lines 155–180): reject inputs
longer than `kInternalMemory - kProgramArea = 3584` bytes without touching
any state; otherwise reset the machine and copy the bytes to the program
area. -/
def writeMemoryBytes :
    ImplementationInterface → Nat → List Nat → ImplementationInterface
  | s, _, [] => s
  | s, a, b :: rest => writeMemoryBytes (writeMem s a b) (a + 1) rest

/-- See `writeMemoryBytes`; this is the method itself. -/
def VMInstance.LoadProgram (s : VMInstance) (program_data : List Nat) :
    Bool × VMInstance :=
  if 3584 < program_data.length then (false, s)
  else
    let r := s.Reset
    (true, {r with impl_ := writeMemoryBytes r.impl_ 0x200 program_data})

/-- Removal of the element found by the `std::find_if` in
`VMInstance::Step`: the first breakpoint whose address matches. -/
def eraseFirstBreakpoint :
    List (Nat × BreakpointFlags) → Nat → List (Nat × BreakpointFlags)
  | [], _ => []
  | bp :: rest, pc => if bp.1 = pc then rest else bp :: eraseFirstBreakpoint rest pc

/-- `VMInstance::Step` (vm_instance.cpp lines 151–175): linear scan for
the first breakpoint whose address equals the current program counter; on
a match, erase it when the stored flag is truthy (`if ((*bp_found).second)`,
i.e. when its underlying value is nonzero) and return `kBreakpointReached`
without running the timers or the engine.  Otherwise run `CheckTimers`,
one engine step, and bump the step counter.  The screen-update callback
has no guest-visible effect. -/
def VMInstance.Step (rand : Nat) (s : VMInstance) : StepResult × VMInstance :=
  match s.breakpoints_.find? (fun bp => bp.1 = s.impl_.program_counter_) with
  | some bp =>
    if bp.2.toNat ≠ 0 then
      (.kBreakpointReached,
       {s with breakpoints_ :=
          eraseFirstBreakpoint s.breakpoints_ s.impl_.program_counter_})
    else (.kBreakpointReached, s)
  | none =>
    let s₁ := s.CheckTimers
    let r := InterpreterImplementation.Step rand s₁.impl_
    (r.1, {s₁ with impl_ := (r.2),
                   number_of_steps_executed_ := s₁.number_of_steps_executed_ + 1})

/-- `VMInstance::PrepareForStepOver` (vm_instance.cpp lines 201–216).  The
source constructs `chip8::Instruction instruction(pc)` from the *address
value* `pc = program_counter_ + 2` itself — it does not read the two bytes
of memory at that address.  If that value decodes as a CALL group, the
one-shot breakpoint goes to its address field plus one instruction length;
otherwise to `pc` itself.  The pushed flag is the literal `true`, i.e. the
flag whose underlying value is 1. -/
def VMInstance.PrepareForStepOver (s : VMInstance) : StepResult × VMInstance :=
  let pc := s.impl_.program_counter_ + 2
  let instruction := Instruction.ofValue pc
  let stop_pc := if instruction.group_ = 0x2 then instruction.address_ + 2 else pc
  (.kSuccess, {s with breakpoints_ := s.breakpoints_ ++ [(stop_pc, .kPreserve)]})

/-- The state built by the `VMInstance` constructor (vm_instance.cpp lines
19–28): members are indeterminate (modelled as zeros), then
`SetTiming(500, 60.0)` and `Reset()` run. -/
def vmInit : VMInstance :=
  (VMInstance.SetTiming
    ⟨initImpl, [], 0, 0, 0, 0, false, 0, 0⟩ 500 60).2.Reset

/-- The tuple of guest-state fields that neither the draw loops nor the
bulk-copy loops ever write: everything except `V_`, `memory_` and
`framebuffer_`.  Used to transport field equalities through those loops. -/
def coreFields (s : ImplementationInterface) :
    Nat × Int × (Fin 16 → Nat) × Nat × Nat × Nat × Bool × (Fin 16 → Bool) × Nat :=
  (s.program_counter_, s.stack_pointer_, s.stack_, s.delay_timer_,
   s.sound_timer_, s.I_, s.halted_until_key_press_, s.keypad_,
   s.key_press_dest_)

/-! ### Concrete machine states used by the theorems below -/

/-- A freshly constructed machine with one breakpoint at the reset program
counter 0x200, flagged `kClearAfterTrigger`. -/
def bpClearVM : VMInstance :=
  {vmInit with breakpoints_ := [(0x200, .kClearAfterTrigger)]}

/-- A freshly constructed machine with one breakpoint at the reset program
counter 0x200, flagged `kPreserve`. -/
def bpPreserveVM : VMInstance :=
  {vmInit with breakpoints_ := [(0x200, .kPreserve)]}

/-- A reset engine with `SUBN V0, V1` (0x8017) at 0x200, `V0 = 4`,
`V1 = 3`: the concrete example named by the spec. -/
def subnVM : ImplementationInterface :=
  writeV (writeV (writeMemoryBytes initImpl 0x200 [0x80, 0x17]) 0 4) 1 3

/-- A reset engine with `LD [I], V1` (0xF155) at 0x200, `V0 = 7` and
`I = 4095`: the two-register bulk copy touches addresses 4095 and 4096,
and 4096 is past the end of memory. -/
def bulkCopyVM : ImplementationInterface :=
  {writeV (writeMemoryBytes initImpl 0x200 [0xF1, 0x55]) 0 7 with I_ := 4095}

/-- A freshly loaded program whose second instruction (the two bytes at
0x202) is `CALL 0x345` (0x23 0x45); the program counter sits at 0x200. -/
def stepOverVM : VMInstance :=
  (vmInit.LoadProgram [0x00, 0x00, 0x23, 0x45]).2

/-- A machine configured to 120 instructions per second at 60 frames per
second, with the delay timer set to 5 through the public setter. -/
def timing120VM : VMInstance :=
  {(vmInit.SetTiming 120 60).2 with
     impl_ := SetDelayTimerValue (vmInit.SetTiming 120 60).2.impl_ 5}

/-- A reset engine with `JP 0x200` (0x1200) at 0x200: a jump to its own
address. -/
def selfJumpVM : ImplementationInterface :=
  writeMemoryBytes initImpl 0x200 [0x12, 0x00]

/-- A reset engine with `RET` (0x00EE) at 0x200 and the reset stack
pointer -1. -/
def retUnderflowVM : ImplementationInterface :=
  writeMemoryBytes initImpl 0x200 [0x00, 0xEE]

/-- A reset engine with `DRW V0, V1, 8` (0xD018) at 0x200, `V0 = 60`,
`V1 = 28`, `I = 4090` and a six-byte sprite at 4090..4095: rows 0..5 are
in bounds, row 6 would read address 4096. -/
def drawFaultVM : ImplementationInterface :=
  {writeV (writeV (writeMemoryBytes
      (writeMemoryBytes initImpl 4090 [0xFF, 0x81, 0xC3, 0x3C, 0x55, 0xAA])
      0x200 [0xD0, 0x18]) 0 60) 1 28 with I_ := 4090}

/-- A reset engine with `JP 0xFFF` (0x1FFF) at 0x200. -/
def jumpHighVM : ImplementationInterface :=
  writeMemoryBytes initImpl 0x200 [0x1F, 0xFF]

/-! ### Theorems -/

theorem readMem_writeMem_ne (s : ImplementationInterface) (a v b : Nat)
    (h : b ≠ a) : readMem (writeMem s a v) b = readMem s b := by
  unfold readMem writeMem
  split
  · simp [h]
  · rfl

theorem readMem_writeMem_self (s : ImplementationInterface) (a v : Nat)
    (h : a < 4096) : readMem (writeMem s a v) a = v % 256 := by
  unfold readMem writeMem
  split
  · simp
  · omega

theorem readMem_writeMemoryBytes_out (l : List Nat) :
    ∀ (s : ImplementationInterface) (a b : Nat),
      (b < a ∨ a + l.length ≤ b) →
      readMem (writeMemoryBytes s a l) b = readMem s b := by
  induction l with
  | nil => intro s a b _; rfl
  | cons hd tl ih =>
    intro s a b h
    show readMem (writeMemoryBytes (writeMem s a hd) (a + 1) tl) b = _
    rw [ih (writeMem s a hd) (a + 1) b (by simp at h ⊢; omega)]
    exact readMem_writeMem_ne s a hd b (by simp at h; omega)

theorem readMem_writeMemoryBytes_in (l : List Nat) :
    ∀ (s : ImplementationInterface) (a i : Nat),
      i < l.length → a + i < 4096 →
      readMem (writeMemoryBytes s a l) (a + i) = l.getD i 0 % 256 := by
  induction l with
  | nil => intro s a i h _; simp at h
  | cons hd tl ih =>
    intro s a i h hb
    show readMem (writeMemoryBytes (writeMem s a hd) (a + 1) tl) (a + i) = _
    match i with
    | 0 =>
      rw [readMem_writeMemoryBytes_out tl (writeMem s a hd) (a + 1) (a + 0)
        (by omega)]
      simpa using readMem_writeMem_self s a hd (by omega)
    | j + 1 =>
      have := ih (writeMem s a hd) (a + 1) j (by simp at h; omega) (by omega)
      rw [show a + (j + 1) = a + 1 + j by omega]
      simpa using this

theorem writeMemoryBytes_pc_sp (l : List Nat) :
    ∀ (s : ImplementationInterface) (a : Nat),
      (writeMemoryBytes s a l).program_counter_ = s.program_counter_ ∧
      (writeMemoryBytes s a l).stack_pointer_ = s.stack_pointer_ := by
  induction l with
  | nil => intro s a; exact ⟨rfl, rfl⟩
  | cons hd tl ih =>
    intro s a
    exact ih (writeMem s a hd) (a + 1)

/-- C8: `LoadProgram` rejects any input longer than
4096 - 0x200 = 3584 bytes and returns the machine completely untouched;
for an input of at most 3584 bytes it returns true, resets the machine
(program counter 0x200, stack pointer -1, step counter 0, memory below
the program origin equal to freshly reset memory), and copies the bytes
verbatim to memory starting at 0x200. -/
theorem load_program_size_check (s : VMInstance) (data : List Nat)
    (hbytes : ∀ b ∈ data, b < 256) :
    (3584 < data.length → s.LoadProgram data = (false, s)) ∧
    (data.length ≤ 3584 →
      (s.LoadProgram data).1 = true ∧
      (∀ i, i < data.length →
        readMem (s.LoadProgram data).2.impl_ (0x200 + i) = data.getD i 0) ∧
      (∀ a, a < 0x200 ∨ 0x200 + data.length ≤ a →
        readMem (s.LoadProgram data).2.impl_ a = readMem s.impl_.Reset a) ∧
      (s.LoadProgram data).2.impl_.program_counter_ = 0x200 ∧
      (s.LoadProgram data).2.impl_.stack_pointer_ = -1 ∧
      (s.LoadProgram data).2.number_of_steps_executed_ = 0) := by
  constructor
  · intro h
    unfold VMInstance.LoadProgram
    rw [if_pos h]
  · intro h
    have hL : (s.LoadProgram data).2.impl_ =
        writeMemoryBytes s.impl_.Reset 0x200 data := by
      unfold VMInstance.LoadProgram
      rw [if_neg (by omega)]
      rfl
    have hCount : (s.LoadProgram data).2.number_of_steps_executed_ = 0 := by
      unfold VMInstance.LoadProgram
      rw [if_neg (by omega)]
      rfl
    have hTrue : (s.LoadProgram data).1 = true := by
      unfold VMInstance.LoadProgram
      rw [if_neg (by omega)]
    refine ⟨hTrue, ?_, ?_, ?_, ?_, ?_⟩
    · intro i hi
      rw [hL, readMem_writeMemoryBytes_in data _ _ i hi (by omega)]
      have hmem : data.getD i 0 ∈ data := by
        rw [List.getD_eq_getElem data 0 hi]
        exact List.getElem_mem hi
      exact Nat.mod_eq_of_lt (hbytes _ hmem)
    · intro a ha
      rw [hL, readMem_writeMemoryBytes_out data _ _ a (by omega)]
    · rw [hL]; exact (writeMemoryBytes_pc_sp data _ _).1
    · rw [hL]; exact (writeMemoryBytes_pc_sp data _ _).2
    · exact hCount

/-- Witness for C8: a 3585-byte input is rejected with the machine
untouched; the three-byte program `[1, 2, 3]` loads, and the byte at
0x200 + 1 reads back as 2. -/
theorem load_program_size_check_witness :
    vmInit.LoadProgram (List.replicate 3585 0) = (false, vmInit) ∧
    (vmInit.LoadProgram [1, 2, 3]).1 = true ∧
    readMem (vmInit.LoadProgram [1, 2, 3]).2.impl_ (0x200 + 1) =
      List.getD [1, 2, 3] 1 0 := by
  have h1 := (load_program_size_check vmInit (List.replicate 3585 0)
    (by intro b hb; rw [List.eq_of_mem_replicate hb]; omega)).1
    (by rw [List.length_replicate]; omega)
  have h2 := (load_program_size_check vmInit [1, 2, 3]
    (by decide)).2 (by decide)
  exact ⟨h1, h2.1, h2.2.1 1 (by decide)⟩

theorem coreFields_pc {s t : ImplementationInterface}
    (h : coreFields t = coreFields s) :
    t.program_counter_ = s.program_counter_ := congrArg Prod.fst h

theorem coreFields_sp {s t : ImplementationInterface}
    (h : coreFields t = coreFields s) :
    t.stack_pointer_ = s.stack_pointer_ := congrArg (fun p => p.2.1) h

theorem coreFields_stack {s t : ImplementationInterface}
    (h : coreFields t = coreFields s) :
    t.stack_ = s.stack_ := congrArg (fun p => p.2.2.1) h

theorem coreFields_delay {s t : ImplementationInterface}
    (h : coreFields t = coreFields s) :
    t.delay_timer_ = s.delay_timer_ := congrArg (fun p => p.2.2.2.1) h

theorem coreFields_sound {s t : ImplementationInterface}
    (h : coreFields t = coreFields s) :
    t.sound_timer_ = s.sound_timer_ := congrArg (fun p => p.2.2.2.2.1) h

theorem coreFields_I {s t : ImplementationInterface}
    (h : coreFields t = coreFields s) :
    t.I_ = s.I_ := congrArg (fun p => p.2.2.2.2.2.1) h

theorem drawColumn_core (s : ImplementationInterface) (a b c d : Nat) :
    coreFields (drawColumn s a b c d) = coreFields s := by
  unfold drawColumn
  dsimp only
  repeat' split
  all_goals rfl

theorem drawColumns_core (xi line yp : Nat) :
    ∀ (rem x : Nat) (s : ImplementationInterface),
      coreFields (drawColumns xi line yp rem x s) = coreFields s := by
  intro rem
  induction rem with
  | zero => intro x s; rfl
  | succ r ih =>
    intro x s
    exact (ih (x + 1) (drawColumn s xi line yp x)).trans
      (drawColumn_core s xi line yp x)

theorem drawRows_core (xi yi : Nat) :
    ∀ (rem y : Nat) (s : ImplementationInterface),
      coreFields (drawRows xi yi rem y s).2 = coreFields s := by
  intro rem
  induction rem with
  | zero => intro y s; rfl
  | succ r ih =>
    intro y s
    unfold drawRows
    split
    · rfl
    · exact (ih (y + 1) _).trans (drawColumns_core xi _ _ 8 0 s)

theorem copyRegistersToMemory_core :
    ∀ (rem j : Nat) (s : ImplementationInterface),
      coreFields (copyRegistersToMemory rem j s) = coreFields s := by
  intro rem
  induction rem with
  | zero => intro j s; rfl
  | succ r ih =>
    intro j s
    exact (ih (j + 1) (writeMem s (s.I_ + j) (readV s j))).trans rfl

theorem copyMemoryToRegisters_core :
    ∀ (rem j : Nat) (s : ImplementationInterface),
      coreFields (copyMemoryToRegisters rem j s) = coreFields s := by
  intro rem
  induction rem with
  | zero => intro j s; rfl
  | succ r ih =>
    intro j s
    exact (ih (j + 1) (writeV s j (readMem s (s.I_ + j)))).trans rfl

theorem drawRows_pc (xi yi rem y : Nat) (s : ImplementationInterface) :
    (drawRows xi yi rem y s).2.program_counter_ = s.program_counter_ :=
  coreFields_pc (drawRows_core xi yi rem y s)

theorem drawRows_sp (xi yi rem y : Nat) (s : ImplementationInterface) :
    (drawRows xi yi rem y s).2.stack_pointer_ = s.stack_pointer_ :=
  coreFields_sp (drawRows_core xi yi rem y s)

theorem copyRegistersToMemory_pc (rem j : Nat) (s : ImplementationInterface) :
    (copyRegistersToMemory rem j s).program_counter_ = s.program_counter_ :=
  coreFields_pc (copyRegistersToMemory_core rem j s)

theorem copyRegistersToMemory_sp (rem j : Nat) (s : ImplementationInterface) :
    (copyRegistersToMemory rem j s).stack_pointer_ = s.stack_pointer_ :=
  coreFields_sp (copyRegistersToMemory_core rem j s)

theorem copyMemoryToRegisters_pc (rem j : Nat) (s : ImplementationInterface) :
    (copyMemoryToRegisters rem j s).program_counter_ = s.program_counter_ :=
  coreFields_pc (copyMemoryToRegisters_core rem j s)

theorem copyMemoryToRegisters_sp (rem j : Nat) (s : ImplementationInterface) :
    (copyMemoryToRegisters rem j s).stack_pointer_ = s.stack_pointer_ :=
  coreFields_sp (copyMemoryToRegisters_core rem j s)

theorem execControlFlowAndScreen_pc (i : Instruction) (s : ImplementationInterface) :
    (execControlFlowAndScreen i s).2.2.program_counter_ = s.program_counter_ := by
  unfold execControlFlowAndScreen
  repeat' split
  all_goals simp [ResetFramebuffer]

theorem execMath_pc (i : Instruction) (s : ImplementationInterface) :
    (execMath i s).2.2.program_counter_ = s.program_counter_ := by
  unfold execMath
  dsimp only
  repeat' split
  all_goals simp [writeV]

theorem execDraw_pc (i : Instruction) (s : ImplementationInterface) :
    (execDraw i s).2.2.program_counter_ = s.program_counter_ := by
  simp [execDraw, drawRows_pc, writeV]

theorem execKeyboardControlFlow_pc (i : Instruction) (s : ImplementationInterface) :
    (execKeyboardControlFlow i s).2.2.program_counter_ = s.program_counter_ := by
  unfold execKeyboardControlFlow
  dsimp only
  repeat' split
  all_goals simp

theorem execTimerAndMemoryControl_pc (i : Instruction) (s : ImplementationInterface) :
    (execTimerAndMemoryControl i s).2.2.program_counter_ = s.program_counter_ := by
  unfold execTimerAndMemoryControl
  dsimp only
  repeat' split
  all_goals
    simp [writeV, writeMem, copyRegistersToMemory_pc, copyMemoryToRegisters_pc]

/-- Case-analysis principle for `exec`: one hypothesis per arm of the
group switch (the call arm split on its overflow check), the last one for
the unrecognized-group default. -/
theorem exec_cases {motive : StepResult × Nat × ImplementationInterface → Prop}
    (rand : Nat) (i : Instruction) (s : ImplementationInterface)
    (h0 : i.group_ = 0x0 → motive (execControlFlowAndScreen i s))
    (h1 : i.group_ = 0x1 → motive (.kSuccess, i.address_, s))
    (h2a : i.group_ = 0x2 → s.stack_pointer_ < 15 →
      motive (.kSuccess, i.address_,
        writeStack {s with stack_pointer_ := s.stack_pointer_ + 1}
          (s.stack_pointer_ + 1) (s.program_counter_ + 2)))
    (h2b : i.group_ = 0x2 → ¬ s.stack_pointer_ < 15 →
      motive (.kStackOverflow, s.program_counter_ + 2, s))
    (h3 : i.group_ = 0x3 → motive (.kSuccess,
      if readV s i.x_ = i.byte_ then s.program_counter_ + 4 else s.program_counter_ + 2, s))
    (h4 : i.group_ = 0x4 → motive (.kSuccess,
      if readV s i.x_ ≠ i.byte_ then s.program_counter_ + 4 else s.program_counter_ + 2, s))
    (h5 : i.group_ = 0x5 → motive (.kSuccess,
      if readV s i.x_ = readV s i.y_ then s.program_counter_ + 4 else s.program_counter_ + 2, s))
    (h6 : i.group_ = 0x6 → motive (.kSuccess, s.program_counter_ + 2, writeV s i.x_ i.byte_))
    (h7 : i.group_ = 0x7 → motive (.kSuccess, s.program_counter_ + 2,
      writeV s i.x_ (readV s i.x_ + i.byte_)))
    (h8 : i.group_ = 0x8 → motive (execMath i s))
    (h9 : i.group_ = 0x9 → motive (.kSuccess,
      if readV s i.x_ ≠ readV s i.y_ then s.program_counter_ + 4 else s.program_counter_ + 2, s))
    (hA : i.group_ = 0xA → motive (.kSuccess, s.program_counter_ + 2,
      {s with I_ := i.address_ % 4294967296}))
    (hB : i.group_ = 0xB → motive (.kSuccess, readV s 0 + i.address_, s))
    (hC : i.group_ = 0xC → motive (.kSuccess, s.program_counter_ + 2,
      writeV s i.x_ (rand &&& i.byte_)))
    (hD : i.group_ = 0xD → motive (execDraw i s))
    (hE : i.group_ = 0xE → motive (execKeyboardControlFlow i s))
    (hF : i.group_ = 0xF → motive (execTimerAndMemoryControl i s))
    (hX : i.group_ ≠ 0x0 → i.group_ ≠ 0x1 → i.group_ ≠ 0x2 → i.group_ ≠ 0x3 →
      i.group_ ≠ 0x4 → i.group_ ≠ 0x5 → i.group_ ≠ 0x6 → i.group_ ≠ 0x7 →
      i.group_ ≠ 0x8 → i.group_ ≠ 0x9 → i.group_ ≠ 0xA → i.group_ ≠ 0xB →
      i.group_ ≠ 0xC → i.group_ ≠ 0xD → i.group_ ≠ 0xE → i.group_ ≠ 0xF →
      motive (.kInvalidInstruction, s.program_counter_ + 2, s)) :
    motive (exec rand i s) := by
  unfold exec
  by_cases g0 : i.group_ = 0x0
  · rw [if_pos g0]; exact h0 g0
  rw [if_neg g0]
  by_cases g1 : i.group_ = 0x1
  · rw [if_pos g1]; exact h1 g1
  rw [if_neg g1]
  by_cases g2 : i.group_ = 0x2
  · rw [if_pos g2]
    by_cases hsp : s.stack_pointer_ < 15
    · rw [if_pos hsp]; exact h2a g2 hsp
    · rw [if_neg hsp]; exact h2b g2 hsp
  rw [if_neg g2]
  by_cases g3 : i.group_ = 0x3
  · rw [if_pos g3]; exact h3 g3
  rw [if_neg g3]
  by_cases g4 : i.group_ = 0x4
  · rw [if_pos g4]; exact h4 g4
  rw [if_neg g4]
  by_cases g5 : i.group_ = 0x5
  · rw [if_pos g5]; exact h5 g5
  rw [if_neg g5]
  by_cases g6 : i.group_ = 0x6
  · rw [if_pos g6]; exact h6 g6
  rw [if_neg g6]
  by_cases g7 : i.group_ = 0x7
  · rw [if_pos g7]; exact h7 g7
  rw [if_neg g7]
  by_cases g8 : i.group_ = 0x8
  · rw [if_pos g8]; exact h8 g8
  rw [if_neg g8]
  by_cases g9 : i.group_ = 0x9
  · rw [if_pos g9]; exact h9 g9
  rw [if_neg g9]
  by_cases gA : i.group_ = 0xA
  · rw [if_pos gA]; exact hA gA
  rw [if_neg gA]
  by_cases gB : i.group_ = 0xB
  · rw [if_pos gB]; exact hB gB
  rw [if_neg gB]
  by_cases gC : i.group_ = 0xC
  · rw [if_pos gC]; exact hC gC
  rw [if_neg gC]
  by_cases gD : i.group_ = 0xD
  · rw [if_pos gD]; exact hD gD
  rw [if_neg gD]
  by_cases gE : i.group_ = 0xE
  · rw [if_pos gE]; exact hE gE
  rw [if_neg gE]
  by_cases gF : i.group_ = 0xF
  · rw [if_pos gF]; exact hF gF
  rw [if_neg gF]
  exact hX g0 g1 g2 g3 g4 g5 g6 g7 g8 g9 gA gB gC gD gE gF

/-- No instruction handler writes the program counter field itself; the
handlers only report the computed `next_program_counter_`. -/
theorem exec_pc (rand : Nat) (i : Instruction) (s : ImplementationInterface) :
    (exec rand i s).2.2.program_counter_ = s.program_counter_ := by
  refine exec_cases (motive := fun r => r.2.2.program_counter_ = s.program_counter_)
    rand i s ?_ ?_ ?_ ?_ ?_ ?_ ?_ ?_ ?_ ?_ ?_ ?_ ?_ ?_ ?_ ?_ ?_ ?_
  · intro _; exact execControlFlowAndScreen_pc i s
  · intro _; rfl
  · intro _ _; rfl
  · intro _ _; rfl
  · intro _; rfl
  · intro _; rfl
  · intro _; rfl
  · intro _; rfl
  · intro _; rfl
  · intro _; exact execMath_pc i s
  · intro _; rfl
  · intro _; rfl
  · intro _; rfl
  · intro _; rfl
  · intro _; exact execDraw_pc i s
  · intro _; exact execKeyboardControlFlow_pc i s
  · intro _; exact execTimerAndMemoryControl_pc i s
  · intro _ _ _ _ _ _ _ _ _ _ _ _ _ _ _ _; rfl

theorem dispatch_pc (rand : Nat) (s : ImplementationInterface) :
    (dispatch rand s).2.2.program_counter_ = s.program_counter_ :=
  exec_pc rand (FetchAndDecodeInstruction s) s

theorem execControlFlowAndScreen_sp (i : Instruction) (s : ImplementationInterface) :
    (execControlFlowAndScreen i s).2.2.stack_pointer_ = s.stack_pointer_ ∨
    ((execControlFlowAndScreen i s).2.2.stack_pointer_ = s.stack_pointer_ - 1 ∧
      0 ≤ s.stack_pointer_) := by
  unfold execControlFlowAndScreen
  repeat' split
  all_goals (try simp [ResetFramebuffer])
  all_goals omega

theorem execMath_sp (i : Instruction) (s : ImplementationInterface) :
    (execMath i s).2.2.stack_pointer_ = s.stack_pointer_ := by
  unfold execMath
  dsimp only
  repeat' split
  all_goals simp [writeV]

theorem execDraw_sp (i : Instruction) (s : ImplementationInterface) :
    (execDraw i s).2.2.stack_pointer_ = s.stack_pointer_ := by
  simp [execDraw, drawRows_sp, writeV]

theorem execKeyboardControlFlow_sp (i : Instruction) (s : ImplementationInterface) :
    (execKeyboardControlFlow i s).2.2.stack_pointer_ = s.stack_pointer_ := by
  unfold execKeyboardControlFlow
  dsimp only
  repeat' split
  all_goals simp

theorem execTimerAndMemoryControl_sp (i : Instruction) (s : ImplementationInterface) :
    (execTimerAndMemoryControl i s).2.2.stack_pointer_ = s.stack_pointer_ := by
  unfold execTimerAndMemoryControl
  dsimp only
  repeat' split
  all_goals
    simp [writeV, writeMem, copyRegistersToMemory_sp, copyMemoryToRegisters_sp]

/-- The stack pointer is only moved by RET (down, after the underflow
check) and CALL (up, after the overflow check). -/
theorem exec_sp (rand : Nat) (i : Instruction) (s : ImplementationInterface) :
    (exec rand i s).2.2.stack_pointer_ = s.stack_pointer_ ∨
    ((exec rand i s).2.2.stack_pointer_ = s.stack_pointer_ - 1 ∧
      0 ≤ s.stack_pointer_) ∨
    ((exec rand i s).2.2.stack_pointer_ = s.stack_pointer_ + 1 ∧
      s.stack_pointer_ < 15) := by
  refine exec_cases (motive := fun r =>
      r.2.2.stack_pointer_ = s.stack_pointer_ ∨
      (r.2.2.stack_pointer_ = s.stack_pointer_ - 1 ∧ 0 ≤ s.stack_pointer_) ∨
      (r.2.2.stack_pointer_ = s.stack_pointer_ + 1 ∧ s.stack_pointer_ < 15))
    rand i s ?_ ?_ ?_ ?_ ?_ ?_ ?_ ?_ ?_ ?_ ?_ ?_ ?_ ?_ ?_ ?_ ?_ ?_
  · intro _
    rcases execControlFlowAndScreen_sp i s with h | h
    · exact Or.inl h
    · exact Or.inr (Or.inl h)
  · intro _; exact Or.inl rfl
  · intro _ hsp; exact Or.inr (Or.inr ⟨rfl, hsp⟩)
  · intro _ _; exact Or.inl rfl
  · intro _; exact Or.inl rfl
  · intro _; exact Or.inl rfl
  · intro _; exact Or.inl rfl
  · intro _; exact Or.inl rfl
  · intro _; exact Or.inl rfl
  · intro _; exact Or.inl (execMath_sp i s)
  · intro _; exact Or.inl rfl
  · intro _; exact Or.inl rfl
  · intro _; exact Or.inl rfl
  · intro _; exact Or.inl rfl
  · intro _; exact Or.inl (execDraw_sp i s)
  · intro _; exact Or.inl (execKeyboardControlFlow_sp i s)
  · intro _; exact Or.inl (execTimerAndMemoryControl_sp i s)
  · intro _ _ _ _ _ _ _ _ _ _ _ _ _ _ _ _; exact Or.inl rfl

theorem dispatch_sp (rand : Nat) (s : ImplementationInterface) :
    (dispatch rand s).2.2.stack_pointer_ = s.stack_pointer_ ∨
    ((dispatch rand s).2.2.stack_pointer_ = s.stack_pointer_ - 1 ∧
      0 ≤ s.stack_pointer_) ∨
    ((dispatch rand s).2.2.stack_pointer_ = s.stack_pointer_ + 1 ∧
      s.stack_pointer_ < 15) :=
  exec_sp rand (FetchAndDecodeInstruction s) s

theorem exec_ret_underflow (rand : Nat) (i : Instruction)
    (s : ImplementationInterface) (hg : i.group_ = 0x0) (hb : i.byte_ = 0xEE)
    (hsp : s.stack_pointer_ < 0) :
    exec rand i s = (.kStackUnderflow, s.program_counter_ + 2, s) := by
  refine exec_cases (motive := fun r => r = (.kStackUnderflow, s.program_counter_ + 2, s))
    rand i s ?_ ?_ ?_ ?_ ?_ ?_ ?_ ?_ ?_ ?_ ?_ ?_ ?_ ?_ ?_ ?_ ?_ ?_
  · intro _
    unfold execControlFlowAndScreen
    rw [if_neg (by omega), if_pos hb, if_pos hsp]
  · intro hg'; omega
  · intro hg' _; omega
  · intro hg' _; omega
  · intro hg'; omega
  · intro hg'; omega
  · intro hg'; omega
  · intro hg'; omega
  · intro hg'; omega
  · intro hg'; omega
  · intro hg'; omega
  · intro hg'; omega
  · intro hg'; omega
  · intro hg'; omega
  · intro hg'; omega
  · intro hg'; omega
  · intro hg'; omega
  · intro hg' _ _ _ _ _ _ _ _ _ _ _ _ _ _ _; omega

theorem exec_call_overflow (rand : Nat) (i : Instruction)
    (s : ImplementationInterface) (hg : i.group_ = 0x2)
    (hsp : ¬ s.stack_pointer_ < 15) :
    exec rand i s = (.kStackOverflow, s.program_counter_ + 2, s) := by
  refine exec_cases (motive := fun r => r = (.kStackOverflow, s.program_counter_ + 2, s))
    rand i s ?_ ?_ ?_ ?_ ?_ ?_ ?_ ?_ ?_ ?_ ?_ ?_ ?_ ?_ ?_ ?_ ?_ ?_
  · intro hg'; omega
  · intro hg'; omega
  · intro _ h15; omega
  · intro _ _; rfl
  · intro hg'; omega
  · intro hg'; omega
  · intro hg'; omega
  · intro hg'; omega
  · intro hg'; omega
  · intro hg'; omega
  · intro hg'; omega
  · intro hg'; omega
  · intro hg'; omega
  · intro hg'; omega
  · intro hg'; omega
  · intro hg'; omega
  · intro hg'; omega
  · intro _ _ hg' _ _ _ _ _ _ _ _ _ _ _ _ _; omega

/-- C7: starting from any state with the stack pointer in [-1, 15], one
engine step leaves it in [-1, 15]; a RET with an empty stack reports
`kStackUnderflow` without popping (stack pointer and stack array
untouched), and a CALL with the stack pointer at its maximum index 15
reports `kStackOverflow` without pushing. -/
theorem stack_pointer_invariant (rand : Nat) (s : ImplementationInterface)
    (h : -1 ≤ s.stack_pointer_ ∧ s.stack_pointer_ ≤ 15) :
    (-1 ≤ (InterpreterImplementation.Step rand s).2.stack_pointer_ ∧
      (InterpreterImplementation.Step rand s).2.stack_pointer_ ≤ 15) ∧
    (s.halted_until_key_press_ = false →
      (FetchAndDecodeInstruction s).group_ = 0x0 →
      (FetchAndDecodeInstruction s).byte_ = 0xEE →
      s.stack_pointer_ < 0 →
      (InterpreterImplementation.Step rand s).1 = .kStackUnderflow ∧
      (InterpreterImplementation.Step rand s).2.stack_pointer_ = s.stack_pointer_ ∧
      (InterpreterImplementation.Step rand s).2.stack_ = s.stack_) ∧
    (s.halted_until_key_press_ = false →
      (FetchAndDecodeInstruction s).group_ = 0x2 →
      s.stack_pointer_ = 15 →
      (InterpreterImplementation.Step rand s).1 = .kStackOverflow ∧
      (InterpreterImplementation.Step rand s).2.stack_pointer_ = 15 ∧
      (InterpreterImplementation.Step rand s).2.stack_ = s.stack_) := by
  refine ⟨?_, ?_, ?_⟩
  · unfold InterpreterImplementation.Step
    by_cases hh : s.halted_until_key_press_
    · rw [if_pos hh]; exact h
    · rw [if_neg hh]
      rcases dispatch_sp rand s with hd | hd | hd
      all_goals split
      all_goals (try dsimp only)
      all_goals omega
  · intro hh hg hb hsp
    have hd : dispatch rand s = (.kStackUnderflow, s.program_counter_ + 2, s) :=
      exec_ret_underflow rand (FetchAndDecodeInstruction s) s hg hb hsp
    have hstep : InterpreterImplementation.Step rand s = (.kStackUnderflow, s) := by
      unfold InterpreterImplementation.Step
      rw [hd]
      simp [hh]
    rw [hstep]
    exact ⟨rfl, rfl, rfl⟩
  · intro hh hg hsp
    have hd : dispatch rand s = (.kStackOverflow, s.program_counter_ + 2, s) :=
      exec_call_overflow rand (FetchAndDecodeInstruction s) s hg (by omega)
    have hstep : InterpreterImplementation.Step rand s = (.kStackOverflow, s) := by
      unfold InterpreterImplementation.Step
      rw [hd]
      simp [hh]
    rw [hstep]
    exact ⟨rfl, by dsimp only; omega, rfl⟩

/-- Witness for C7: the freshly reset machine (stack pointer -1) with
`RET` at 0x200 reports a stack underflow and keeps the stack pointer. -/
theorem stack_pointer_invariant_witness :
    (-1 ≤ retUnderflowVM.stack_pointer_ ∧ retUnderflowVM.stack_pointer_ ≤ 15) ∧
    (InterpreterImplementation.Step 0 retUnderflowVM).1 = .kStackUnderflow ∧
    (InterpreterImplementation.Step 0 retUnderflowVM).2.stack_pointer_ = -1 := by
  have h := stack_pointer_invariant 0 retUnderflowVM (by decide)
  exact ⟨by decide,
    (h.2.1 (by decide) (by decide) (by decide) (by decide)).1, by decide⟩

/-- C6 (amended): in a non-halted state, a fault outcome
(`kInvalidInstruction`, `kInvalidKey`, `kInvalidSpriteLocation`,
`kInvalidMemoryLocation`, `kStackUnderflow`, `kStackOverflow`) leaves the
program counter at the faulting instruction, and a `kSuccess` or
`kHaltUntilKeyPress` outcome sets it to the computed
`next_program_counter_` — which may happen to equal the old program
counter (a self-targeting jump), so "unchanged" does not characterize the
fault outcomes. -/
theorem fault_leaves_pc_success_advances (rand : Nat)
    (s : ImplementationInterface) (hh : s.halted_until_key_press_ = false) :
    (((InterpreterImplementation.Step rand s).1 = .kSuccess ∨
      (InterpreterImplementation.Step rand s).1 = .kHaltUntilKeyPress) →
      (InterpreterImplementation.Step rand s).2.program_counter_ =
        (dispatch rand s).2.1) ∧
    (((InterpreterImplementation.Step rand s).1 = .kInvalidInstruction ∨
      (InterpreterImplementation.Step rand s).1 = .kInvalidKey ∨
      (InterpreterImplementation.Step rand s).1 = .kInvalidSpriteLocation ∨
      (InterpreterImplementation.Step rand s).1 = .kInvalidMemoryLocation ∨
      (InterpreterImplementation.Step rand s).1 = .kStackUnderflow ∨
      (InterpreterImplementation.Step rand s).1 = .kStackOverflow) →
      (InterpreterImplementation.Step rand s).2.program_counter_ =
        s.program_counter_) := by
  unfold InterpreterImplementation.Step
  rw [if_neg (by simp [hh])]
  split
  next hcond =>
    constructor
    · intro _; dsimp only
    · intro hf
      dsimp only at hf
      rcases hcond with hc | hc <;>
        rcases hf with hf | hf | hf | hf | hf | hf <;> simp_all
  next hcond =>
    constructor
    · intro hs
      dsimp only at hs
      exact absurd hs hcond
    · intro _
      dsimp only
      exact dispatch_pc rand s

/-- Witness for C6: on the self-jump state the step succeeds and the
program counter is set to the computed next program counter, 0x200. -/
theorem fault_leaves_pc_success_advances_witness :
    (InterpreterImplementation.Step 0 selfJumpVM).2.program_counter_ =
      (dispatch 0 selfJumpVM).2.1 ∧
    (dispatch 0 selfJumpVM).2.1 = 0x200 := by
  exact ⟨(fault_leaves_pc_success_advances 0 selfJumpVM (by decide)).1
    (Or.inl (by decide)), by decide⟩

theorem x_lt16 (v : Nat) : (Instruction.ofValue v).x_ < 16 := by
  have h : (v >>> 8) &&& 0x0F ≤ 0x0F := Nat.and_le_right
  simpa [Instruction.ofValue, GetX] using Nat.lt_succ_of_le h

theorem y_lt16 (v : Nat) : (Instruction.ofValue v).y_ < 16 := by
  have h : v &&& 0xFF ≤ 0xFF := Nat.and_le_right
  simp only [Instruction.ofValue, GetY, Nat.shiftRight_eq_div_pow]
  omega

theorem nibble_lt16 (v : Nat) : (Instruction.ofValue v).nibble_ < 16 := by
  have h : v &&& 0xF ≤ 0xF := Nat.and_le_right
  simpa [Instruction.ofValue, GetNibble] using Nat.lt_succ_of_le h

theorem readV_writeV_self (s : ImplementationInterface) (i v : Nat)
    (h : i < 16) : readV (writeV s i v) i = v % 256 := by
  unfold readV writeV
  rw [dif_pos h]
  simp

theorem readV_writeV_ne (s : ImplementationInterface) (i v j : Nat)
    (h : j ≠ i) : readV (writeV s i v) j = readV s j := by
  unfold readV writeV
  split
  · simp [h]
  · rfl

theorem sub8_lt (a b : Nat) : sub8 a b < 256 := by
  unfold sub8
  omega

theorem sub8_int (a b : Nat) : (sub8 a b : Int) = ((a : Int) - (b : Int)) % 256 := by
  unfold sub8
  omega

theorem exec_group8 (rand : Nat) (i : Instruction) (s : ImplementationInterface)
    (hg : i.group_ = 0x8) : exec rand i s = execMath i s := by
  refine exec_cases (motive := fun r => r = execMath i s)
    rand i s ?_ ?_ ?_ ?_ ?_ ?_ ?_ ?_ ?_ ?_ ?_ ?_ ?_ ?_ ?_ ?_ ?_ ?_
  · intro hg'; omega
  · intro hg'; omega
  · intro hg' _; omega
  · intro hg' _; omega
  · intro hg'; omega
  · intro hg'; omega
  · intro hg'; omega
  · intro hg'; omega
  · intro hg'; omega
  · intro _; rfl
  · intro hg'; omega
  · intro hg'; omega
  · intro hg'; omega
  · intro hg'; omega
  · intro hg'; omega
  · intro hg'; omega
  · intro hg'; omega
  · intro _ _ _ _ _ _ _ _ hg' _ _ _ _ _ _ _; omega

theorem exec_groupD (rand : Nat) (i : Instruction) (s : ImplementationInterface)
    (hg : i.group_ = 0xD) : exec rand i s = execDraw i s := by
  refine exec_cases (motive := fun r => r = execDraw i s)
    rand i s ?_ ?_ ?_ ?_ ?_ ?_ ?_ ?_ ?_ ?_ ?_ ?_ ?_ ?_ ?_ ?_ ?_ ?_
  · intro hg'; omega
  · intro hg'; omega
  · intro hg' _; omega
  · intro hg' _; omega
  · intro hg'; omega
  · intro hg'; omega
  · intro hg'; omega
  · intro hg'; omega
  · intro hg'; omega
  · intro hg'; omega
  · intro hg'; omega
  · intro hg'; omega
  · intro hg'; omega
  · intro hg'; omega
  · intro _; rfl
  · intro hg'; omega
  · intro hg'; omega
  · intro _ _ _ _ _ _ _ _ _ _ _ _ _ hg' _ _; omega

/-- C2: the SUB handler (8xy5) stores the 8-bit wraparound of `Vx - Vy`
into `Vx` with the flag register set to 1 iff the old `Vx` exceeded the
old `Vy`, and the SUBN handler (8xy7) stores the wraparound of `Vy - Vx`
with the flag set to 1 iff the old `Vy` exceeded the old `Vx`; stated for
operand registers distinct from the flag register VF (which the claim
treats as a separate register). -/
theorem sub_subn_wraparound_and_flag (rand : Nat) (s : ImplementationInterface)
    (hh : s.halted_until_key_press_ = false)
    (hg : (FetchAndDecodeInstruction s).group_ = 0x8)
    (hx : (FetchAndDecodeInstruction s).x_ ≠ 15)
    (hy : (FetchAndDecodeInstruction s).y_ ≠ 15) :
    ((FetchAndDecodeInstruction s).nibble_ = 0x5 →
      (InterpreterImplementation.Step rand s).1 = .kSuccess ∧
      (readV (InterpreterImplementation.Step rand s).2
          (FetchAndDecodeInstruction s).x_ : Int) =
        ((readV s (FetchAndDecodeInstruction s).x_ : Int) -
          (readV s (FetchAndDecodeInstruction s).y_ : Int)) % 256 ∧
      readV (InterpreterImplementation.Step rand s).2 15 =
        (if readV s (FetchAndDecodeInstruction s).y_ <
            readV s (FetchAndDecodeInstruction s).x_ then 1 else 0)) ∧
    ((FetchAndDecodeInstruction s).nibble_ = 0x7 →
      (InterpreterImplementation.Step rand s).1 = .kSuccess ∧
      (readV (InterpreterImplementation.Step rand s).2
          (FetchAndDecodeInstruction s).x_ : Int) =
        ((readV s (FetchAndDecodeInstruction s).y_ : Int) -
          (readV s (FetchAndDecodeInstruction s).x_ : Int)) % 256 ∧
      readV (InterpreterImplementation.Step rand s).2 15 =
        (if readV s (FetchAndDecodeInstruction s).x_ <
            readV s (FetchAndDecodeInstruction s).y_ then 1 else 0)) := by
  have hx16 : (FetchAndDecodeInstruction s).x_ < 16 := x_lt16 _
  have hd : dispatch rand s = execMath (FetchAndDecodeInstruction s) s :=
    exec_group8 rand (FetchAndDecodeInstruction s) s hg
  constructor
  · intro hn
    have hm : execMath (FetchAndDecodeInstruction s) s =
        (.kSuccess, s.program_counter_ + 2,
         writeV (writeV s 15
             (if readV s (FetchAndDecodeInstruction s).y_ <
                 readV s (FetchAndDecodeInstruction s).x_ then 1 else 0))
           (FetchAndDecodeInstruction s).x_
           (sub8
             (readV (writeV s 15
                 (if readV s (FetchAndDecodeInstruction s).y_ <
                     readV s (FetchAndDecodeInstruction s).x_ then 1 else 0))
               (FetchAndDecodeInstruction s).x_)
             (readV (writeV s 15
                 (if readV s (FetchAndDecodeInstruction s).y_ <
                     readV s (FetchAndDecodeInstruction s).x_ then 1 else 0))
               (FetchAndDecodeInstruction s).y_))) := by
      unfold execMath
      rw [if_neg (by omega), if_neg (by omega), if_neg (by omega),
        if_neg (by omega), if_neg (by omega), if_pos hn]
    have hstep : InterpreterImplementation.Step rand s =
        ((.kSuccess : StepResult),
         {(execMath (FetchAndDecodeInstruction s) s).2.2 with
            program_counter_ := s.program_counter_ + 2}) := by
      unfold InterpreterImplementation.Step
      rw [if_neg (by simp [hh]), hd, hm]
      rw [if_pos (Or.inl rfl)]
    rw [hstep, hm]
    refine ⟨rfl, ?_, ?_⟩
    · show (readV (writeV _ _ _) _ : Int) = _
      rw [readV_writeV_self _ _ _ hx16,
        Nat.mod_eq_of_lt (sub8_lt _ _), sub8_int,
        readV_writeV_ne _ _ _ _ hx, readV_writeV_ne _ _ _ _ hy]
    · show readV (writeV _ _ _) 15 = _
      rw [readV_writeV_ne _ _ _ _ (by omega),
        readV_writeV_self _ _ _ (by omega)]
      split
      · rfl
      · rfl
  · intro hn
    have hm : execMath (FetchAndDecodeInstruction s) s =
        (.kSuccess, s.program_counter_ + 2,
         writeV (writeV s 15
             (if readV s (FetchAndDecodeInstruction s).x_ <
                 readV s (FetchAndDecodeInstruction s).y_ then 1 else 0))
           (FetchAndDecodeInstruction s).x_
           (sub8
             (readV (writeV s 15
                 (if readV s (FetchAndDecodeInstruction s).x_ <
                     readV s (FetchAndDecodeInstruction s).y_ then 1 else 0))
               (FetchAndDecodeInstruction s).y_)
             (readV (writeV s 15
                 (if readV s (FetchAndDecodeInstruction s).x_ <
                     readV s (FetchAndDecodeInstruction s).y_ then 1 else 0))
               (FetchAndDecodeInstruction s).x_))) := by
      unfold execMath
      rw [if_neg (by omega), if_neg (by omega), if_neg (by omega),
        if_neg (by omega), if_neg (by omega), if_neg (by omega),
        if_neg (by omega), if_pos hn]
    have hstep : InterpreterImplementation.Step rand s =
        ((.kSuccess : StepResult),
         {(execMath (FetchAndDecodeInstruction s) s).2.2 with
            program_counter_ := s.program_counter_ + 2}) := by
      unfold InterpreterImplementation.Step
      rw [if_neg (by simp [hh]), hd, hm]
      rw [if_pos (Or.inl rfl)]
    rw [hstep, hm]
    refine ⟨rfl, ?_, ?_⟩
    · show (readV (writeV _ _ _) _ : Int) = _
      rw [readV_writeV_self _ _ _ hx16,
        Nat.mod_eq_of_lt (sub8_lt _ _), sub8_int,
        readV_writeV_ne _ _ _ _ hx, readV_writeV_ne _ _ _ _ hy]
    · show readV (writeV _ _ _) 15 = _
      rw [readV_writeV_ne _ _ _ _ (by omega),
        readV_writeV_self _ _ _ (by omega)]
      split
      · rfl
      · rfl

/-- Witness for C2: the spec's own example, `SUBN V0, V1` with
`V0 = 0x04` and `V1 = 0x03`: the result register V0 becomes 0xFF and the
flag register becomes 0. -/
theorem sub_subn_wraparound_and_flag_witness :
    (FetchAndDecodeInstruction subnVM).nibble_ = 0x7 ∧
    (readV (InterpreterImplementation.Step 0 subnVM).2
        (FetchAndDecodeInstruction subnVM).x_ : Int) =
      ((readV subnVM (FetchAndDecodeInstruction subnVM).y_ : Int) -
        (readV subnVM (FetchAndDecodeInstruction subnVM).x_ : Int)) % 256 ∧
    readV (InterpreterImplementation.Step 0 subnVM).2 0 = 0xFF ∧
    readV (InterpreterImplementation.Step 0 subnVM).2 15 = 0 := by
  have h := (sub_subn_wraparound_and_flag 0 subnVM (by decide) (by decide)
    (by decide) (by decide)).2 (by decide)
  exact ⟨by decide, h.2.1, by decide, by decide⟩

theorem drawRows_delay (xi yi rem y : Nat) (s : ImplementationInterface) :
    (drawRows xi yi rem y s).2.delay_timer_ = s.delay_timer_ :=
  coreFields_delay (drawRows_core xi yi rem y s)

theorem drawRows_sound (xi yi rem y : Nat) (s : ImplementationInterface) :
    (drawRows xi yi rem y s).2.sound_timer_ = s.sound_timer_ :=
  coreFields_sound (drawRows_core xi yi rem y s)

theorem copyRegistersToMemory_delay (rem j : Nat) (s : ImplementationInterface) :
    (copyRegistersToMemory rem j s).delay_timer_ = s.delay_timer_ :=
  coreFields_delay (copyRegistersToMemory_core rem j s)

theorem copyRegistersToMemory_sound (rem j : Nat) (s : ImplementationInterface) :
    (copyRegistersToMemory rem j s).sound_timer_ = s.sound_timer_ :=
  coreFields_sound (copyRegistersToMemory_core rem j s)

theorem copyMemoryToRegisters_delay (rem j : Nat) (s : ImplementationInterface) :
    (copyMemoryToRegisters rem j s).delay_timer_ = s.delay_timer_ :=
  coreFields_delay (copyMemoryToRegisters_core rem j s)

theorem copyMemoryToRegisters_sound (rem j : Nat) (s : ImplementationInterface) :
    (copyMemoryToRegisters rem j s).sound_timer_ = s.sound_timer_ :=
  coreFields_sound (copyMemoryToRegisters_core rem j s)

theorem execControlFlowAndScreen_timers (i : Instruction)
    (s : ImplementationInterface) :
    (execControlFlowAndScreen i s).2.2.delay_timer_ = s.delay_timer_ ∧
    (execControlFlowAndScreen i s).2.2.sound_timer_ = s.sound_timer_ := by
  unfold execControlFlowAndScreen
  repeat' split
  all_goals simp [ResetFramebuffer]

theorem execMath_timers (i : Instruction) (s : ImplementationInterface) :
    (execMath i s).2.2.delay_timer_ = s.delay_timer_ ∧
    (execMath i s).2.2.sound_timer_ = s.sound_timer_ := by
  unfold execMath
  dsimp only
  repeat' split
  all_goals simp [writeV]

theorem execDraw_timers (i : Instruction) (s : ImplementationInterface) :
    (execDraw i s).2.2.delay_timer_ = s.delay_timer_ ∧
    (execDraw i s).2.2.sound_timer_ = s.sound_timer_ := by
  constructor
  · simp [execDraw, drawRows_delay, writeV]
  · simp [execDraw, drawRows_sound, writeV]

theorem execKeyboardControlFlow_timers (i : Instruction)
    (s : ImplementationInterface) :
    (execKeyboardControlFlow i s).2.2.delay_timer_ = s.delay_timer_ ∧
    (execKeyboardControlFlow i s).2.2.sound_timer_ = s.sound_timer_ := by
  unfold execKeyboardControlFlow
  dsimp only
  repeat' split
  all_goals simp

theorem execTimerAndMemoryControl_timers (i : Instruction)
    (s : ImplementationInterface) (hb15 : i.byte_ ≠ 0x15)
    (hb18 : i.byte_ ≠ 0x18) :
    (execTimerAndMemoryControl i s).2.2.delay_timer_ = s.delay_timer_ ∧
    (execTimerAndMemoryControl i s).2.2.sound_timer_ = s.sound_timer_ := by
  unfold execTimerAndMemoryControl
  dsimp only
  repeat' split
  all_goals
    simp_all [writeV, writeMem, copyRegistersToMemory_delay,
      copyRegistersToMemory_sound, copyMemoryToRegisters_delay,
      copyMemoryToRegisters_sound]

/-- Outside the `LD DT, Vx` (Fx15) and `LD ST, Vx` (Fx18) handlers, no
instruction touches the delay or sound timer. -/
theorem exec_timers (rand : Nat) (i : Instruction) (s : ImplementationInterface)
    (h : ¬(i.group_ = 0xF ∧ (i.byte_ = 0x15 ∨ i.byte_ = 0x18))) :
    (exec rand i s).2.2.delay_timer_ = s.delay_timer_ ∧
    (exec rand i s).2.2.sound_timer_ = s.sound_timer_ := by
  refine exec_cases (motive := fun r =>
      r.2.2.delay_timer_ = s.delay_timer_ ∧ r.2.2.sound_timer_ = s.sound_timer_)
    rand i s ?_ ?_ ?_ ?_ ?_ ?_ ?_ ?_ ?_ ?_ ?_ ?_ ?_ ?_ ?_ ?_ ?_ ?_
  · intro _; exact execControlFlowAndScreen_timers i s
  · intro _; exact ⟨rfl, rfl⟩
  · intro _ _; exact ⟨rfl, rfl⟩
  · intro _ _; exact ⟨rfl, rfl⟩
  · intro _; exact ⟨rfl, rfl⟩
  · intro _; exact ⟨rfl, rfl⟩
  · intro _; exact ⟨rfl, rfl⟩
  · intro _; exact ⟨rfl, rfl⟩
  · intro _; exact ⟨rfl, rfl⟩
  · intro _; exact execMath_timers i s
  · intro _; exact ⟨rfl, rfl⟩
  · intro _; exact ⟨rfl, rfl⟩
  · intro _; exact ⟨rfl, rfl⟩
  · intro _; exact ⟨rfl, rfl⟩
  · intro _; exact execDraw_timers i s
  · intro _; exact execKeyboardControlFlow_timers i s
  · intro hgF
    exact execTimerAndMemoryControl_timers i s
      (fun hb => h ⟨hgF, Or.inl hb⟩) (fun hb => h ⟨hgF, Or.inr hb⟩)
  · intro _ _ _ _ _ _ _ _ _ _ _ _ _ _ _ _; exact ⟨rfl, rfl⟩

theorem interpreterStep_timers (rand : Nat) (s : ImplementationInterface)
    (h : s.halted_until_key_press_ = true ∨
      ¬((FetchAndDecodeInstruction s).group_ = 0xF ∧
        ((FetchAndDecodeInstruction s).byte_ = 0x15 ∨
         (FetchAndDecodeInstruction s).byte_ = 0x18))) :
    (InterpreterImplementation.Step rand s).2.delay_timer_ = s.delay_timer_ ∧
    (InterpreterImplementation.Step rand s).2.sound_timer_ = s.sound_timer_ := by
  unfold InterpreterImplementation.Step
  by_cases hh : s.halted_until_key_press_
  · rw [if_pos hh]; exact ⟨rfl, rfl⟩
  · rw [if_neg hh]
    have hx : ¬((FetchAndDecodeInstruction s).group_ = 0xF ∧
        ((FetchAndDecodeInstruction s).byte_ = 0x15 ∨
         (FetchAndDecodeInstruction s).byte_ = 0x18)) := by
      rcases h with h | h
      · exact absurd h (by simpa using hh)
      · exact h
    have ht := exec_timers rand (FetchAndDecodeInstruction s) s hx
    split
    · exact ⟨ht.1, ht.2⟩
    · exact ⟨ht.1, ht.2⟩

/-- `DecrementTimers`, flattened: the sound timer decrements when
positive (with the tone flag ending up true exactly then), and the delay
timer decrements when positive. -/
theorem decrementTimers_eq (s : VMInstance) :
    s.DecrementTimers =
      {s with
        is_playing_tone_ := (if 0 < s.impl_.sound_timer_ then true else false),
        impl_ := {s.impl_ with
          sound_timer_ :=
            (if 0 < s.impl_.sound_timer_ then s.impl_.sound_timer_ - 1
             else s.impl_.sound_timer_),
          delay_timer_ :=
            (if 0 < s.impl_.delay_timer_ then s.impl_.delay_timer_ - 1
             else s.impl_.delay_timer_)}} := by
  unfold VMInstance.DecrementTimers
  by_cases hs : 0 < s.impl_.sound_timer_ <;>
    by_cases hp : s.is_playing_tone_ <;>
      by_cases hd : 0 < s.impl_.delay_timer_ <;>
        simp [hs, hp, hd]

theorem checkTimers_counter (s : VMInstance) :
    (s.CheckTimers).number_of_steps_executed_ = s.number_of_steps_executed_ := by
  unfold VMInstance.CheckTimers
  split
  · rw [decrementTimers_eq]
  · rfl

theorem checkTimers_mem (s : VMInstance) :
    (s.CheckTimers).impl_.memory_ = s.impl_.memory_ := by
  unfold VMInstance.CheckTimers
  split
  · rw [decrementTimers_eq]
  · rfl

theorem checkTimers_pc (s : VMInstance) :
    (s.CheckTimers).impl_.program_counter_ = s.impl_.program_counter_ := by
  unfold VMInstance.CheckTimers
  split
  · rw [decrementTimers_eq]
  · rfl

theorem checkTimers_halted (s : VMInstance) :
    (s.CheckTimers).impl_.halted_until_key_press_ =
      s.impl_.halted_until_key_press_ := by
  unfold VMInstance.CheckTimers
  split
  · rw [decrementTimers_eq]
  · rfl

theorem checkTimers_timers (s : VMInstance) :
    (s.CheckTimers).impl_.delay_timer_ =
      (if s.number_of_steps_executed_ % 8 = 7 ∧ 0 < s.impl_.delay_timer_
       then s.impl_.delay_timer_ - 1 else s.impl_.delay_timer_) ∧
    (s.CheckTimers).impl_.sound_timer_ =
      (if s.number_of_steps_executed_ % 8 = 7 ∧ 0 < s.impl_.sound_timer_
       then s.impl_.sound_timer_ - 1 else s.impl_.sound_timer_) := by
  unfold VMInstance.CheckTimers
  by_cases hc : s.number_of_steps_executed_ % 8 = 7
  · rw [if_pos hc, decrementTimers_eq]
    exact ⟨by simp [hc], by simp [hc]⟩
  · rw [if_neg hc]
    exact ⟨by simp [hc], by simp [hc]⟩

theorem fetch_congr (t u : ImplementationInterface)
    (hm : t.memory_ = u.memory_) (hp : t.program_counter_ = u.program_counter_) :
    FetchAndDecodeInstruction t = FetchAndDecodeInstruction u := by
  unfold FetchAndDecodeInstruction readMem
  rw [hm, hp]

/-- C4 (amended): a non-breakpoint `VMInstance::Step` increments the step
counter by one and decrements each timer (when positive) exactly when the
pre-step counter is congruent to 7 modulo the hard-coded divisor 8 — i.e.
once every 8 consecutive calls, independent of the configured timing.  The
hypothesis excludes the two instructions that themselves write a timer
(`LD DT, Vx`, `LD ST, Vx`). -/
theorem timer_cadence_every_eight_steps (rand : Nat) (s : VMInstance)
    (hbp : s.breakpoints_.find? (fun bp => bp.1 = s.impl_.program_counter_) = none)
    (hinstr : s.impl_.halted_until_key_press_ = true ∨
      ¬((FetchAndDecodeInstruction s.impl_).group_ = 0xF ∧
        ((FetchAndDecodeInstruction s.impl_).byte_ = 0x15 ∨
         (FetchAndDecodeInstruction s.impl_).byte_ = 0x18))) :
    (VMInstance.Step rand s).2.number_of_steps_executed_ =
      s.number_of_steps_executed_ + 1 ∧
    (VMInstance.Step rand s).2.impl_.delay_timer_ =
      (if s.number_of_steps_executed_ % 8 = 7 ∧ 0 < s.impl_.delay_timer_
       then s.impl_.delay_timer_ - 1 else s.impl_.delay_timer_) ∧
    (VMInstance.Step rand s).2.impl_.sound_timer_ =
      (if s.number_of_steps_executed_ % 8 = 7 ∧ 0 < s.impl_.sound_timer_
       then s.impl_.sound_timer_ - 1 else s.impl_.sound_timer_) := by
  have hfetch : FetchAndDecodeInstruction (s.CheckTimers).impl_ =
      FetchAndDecodeInstruction s.impl_ :=
    fetch_congr _ _ (checkTimers_mem s) (checkTimers_pc s)
  have hstep := interpreterStep_timers rand (s.CheckTimers).impl_
    (by rw [hfetch, checkTimers_halted s]; exact hinstr)
  unfold VMInstance.Step
  rw [hbp]
  dsimp only
  refine ⟨by rw [checkTimers_counter s], ?_, ?_⟩
  · rw [hstep.1, (checkTimers_timers s).1]
  · rw [hstep.2, (checkTimers_timers s).2]

/-- Witness for C4's amended cadence: the freshly constructed machine has
no breakpoints and an all-zero program; one step bumps the counter to 1
and leaves the (zero) timers alone. -/
theorem timer_cadence_every_eight_steps_witness :
    (VMInstance.Step 0 vmInit).2.number_of_steps_executed_ =
      vmInit.number_of_steps_executed_ + 1 ∧
    (VMInstance.Step 0 vmInit).2.impl_.delay_timer_ =
      (if vmInit.number_of_steps_executed_ % 8 = 7 ∧ 0 < vmInit.impl_.delay_timer_
       then vmInit.impl_.delay_timer_ - 1 else vmInit.impl_.delay_timer_) := by
  have h := timer_cadence_every_eight_steps 0 vmInit (by decide)
    (Or.inr (by decide))
  exact ⟨h.1, h.2.1⟩

theorem readFB_writeFB_self (s : ImplementationInterface) (p v : Nat)
    (h : p < 2048) : readFB (writeFB s p v) p = v % 4294967296 := by
  unfold readFB writeFB
  rw [dif_pos h]
  simp

theorem readFB_writeFB_ne (s : ImplementationInterface) (p v q : Nat)
    (h : q ≠ p) : readFB (writeFB s p v) q = readFB s q := by
  unfold readFB writeFB
  split
  · simp [h]
  · rfl

theorem readMem_congr {t u : ImplementationInterface}
    (hm : t.memory_ = u.memory_) : ∀ a, readMem t a = readMem u a := by
  intro a
  unfold readMem
  rw [hm]

theorem drawColumn_readV_ne (s : ImplementationInterface)
    (xi line yp x j : Nat) (hj : j ≠ 15) :
    readV (drawColumn s xi line yp x) j = readV s j := by
  unfold drawColumn
  dsimp only
  repeat' split
  · exact (readV_writeV_ne _ _ _ _ hj).trans rfl
  · rfl
  · rfl

theorem drawColumn_mem (s : ImplementationInterface) (xi line yp x : Nat) :
    (drawColumn s xi line yp x).memory_ = s.memory_ := by
  unfold drawColumn
  dsimp only
  repeat' split
  all_goals rfl

theorem drawColumn_fb_ne (s : ImplementationInterface) (xi line yp x q : Nat)
    (hq : q ≠ yp * 64 + (readV s xi + x) % 64) :
    readFB (drawColumn s xi line yp x) q = readFB s q := by
  unfold drawColumn
  dsimp only
  repeat' split
  · exact readFB_writeFB_ne s _ kBlack q hq
  · exact readFB_writeFB_ne s _ kWhite q hq
  · rfl

theorem drawColumn_fb_self (s : ImplementationInterface) (xi line yp x : Nat)
    (hyp : yp < 32) :
    readFB (drawColumn s xi line yp x) (yp * 64 + (readV s xi + x) % 64) =
      (if line &&& (0x80 >>> x) ≠ 0 then
        (if readFB s (yp * 64 + (readV s xi + x) % 64) = kWhite
         then kBlack else kWhite)
       else readFB s (yp * 64 + (readV s xi + x) % 64)) := by
  have hp : yp * 64 + (readV s xi + x) % 64 < 2048 := by omega
  unfold drawColumn
  dsimp only
  repeat' split
  · exact (readFB_writeFB_self s _ kBlack hp).trans (by decide)
  · exact (readFB_writeFB_self s _ kWhite hp).trans (by decide)
  · rfl

theorem drawColumns_readV_ne (xi line yp : Nat) :
    ∀ (rem x : Nat) (s : ImplementationInterface) (j : Nat), j ≠ 15 →
      readV (drawColumns xi line yp rem x s) j = readV s j := by
  intro rem
  induction rem with
  | zero => intro x s j _; rfl
  | succ r ih =>
    intro x s j hj
    exact (ih (x + 1) _ j hj).trans (drawColumn_readV_ne s xi line yp x j hj)

theorem drawColumns_mem (xi line yp : Nat) :
    ∀ (rem x : Nat) (s : ImplementationInterface),
      (drawColumns xi line yp rem x s).memory_ = s.memory_ := by
  intro rem
  induction rem with
  | zero => intro x s; rfl
  | succ r ih =>
    intro x s
    exact (ih (x + 1) _).trans (drawColumn_mem s xi line yp x)

theorem drawColumns_fb_ne (xi line yp : Nat) (hxi : xi ≠ 15) :
    ∀ (rem x : Nat) (s : ImplementationInterface) (q : Nat),
      (∀ c, x ≤ c → c < x + rem → q ≠ yp * 64 + (readV s xi + c) % 64) →
      readFB (drawColumns xi line yp rem x s) q = readFB s q := by
  intro rem
  induction rem with
  | zero => intro x s q _; rfl
  | succ r ih =>
    intro x s q hq
    have hv : readV (drawColumn s xi line yp x) xi = readV s xi :=
      drawColumn_readV_ne s xi line yp x xi hxi
    have h1 : readFB (drawColumns xi line yp r (x + 1) (drawColumn s xi line yp x)) q =
        readFB (drawColumn s xi line yp x) q := by
      refine ih (x + 1) _ q ?_
      intro c hc1 hc2
      rw [hv]
      exact hq c (by omega) (by omega)
    exact h1.trans (drawColumn_fb_ne s xi line yp x q (hq x (by omega) (by omega)))

theorem drawColumns_fb_act (xi line yp : Nat) (hxi : xi ≠ 15) (hyp : yp < 32) :
    ∀ (rem x : Nat) (s : ImplementationInterface) (c : Nat),
      x ≤ c → c < x + rem → x + rem ≤ 64 →
      readFB (drawColumns xi line yp rem x s)
          (yp * 64 + (readV s xi + c) % 64) =
        (if line &&& (0x80 >>> c) ≠ 0 then
          (if readFB s (yp * 64 + (readV s xi + c) % 64) = kWhite
           then kBlack else kWhite)
         else readFB s (yp * 64 + (readV s xi + c) % 64)) := by
  intro rem
  induction rem with
  | zero => intro x s c h1 h2 _; omega
  | succ r ih =>
    intro x s c h1 h2 h3
    have hv : readV (drawColumn s xi line yp x) xi = readV s xi :=
      drawColumn_readV_ne s xi line yp x xi hxi
    rcases Nat.eq_or_lt_of_le h1 with hcx | hcx
    · subst hcx
      have htail : readFB (drawColumns xi line yp r (x + 1) (drawColumn s xi line yp x))
          (yp * 64 + (readV s xi + x) % 64) =
          readFB (drawColumn s xi line yp x) (yp * 64 + (readV s xi + x) % 64) := by
        refine drawColumns_fb_ne xi line yp hxi r (x + 1) _ _ ?_
        intro c2 hc1 hc2
        rw [hv]
        omega
      exact htail.trans (drawColumn_fb_self s xi line yp x hyp)
    · have hne : yp * 64 + (readV s xi + c) % 64 ≠
          yp * 64 + (readV s xi + x) % 64 := by
        have : (readV s xi + c) % 64 ≠ (readV s xi + x) % 64 := by omega
        omega
      have hstep : readFB (drawColumn s xi line yp x)
          (yp * 64 + (readV s xi + c) % 64) =
          readFB s (yp * 64 + (readV s xi + c) % 64) :=
        drawColumn_fb_ne s xi line yp x _ hne
      have := ih (x + 1) (drawColumn s xi line yp x) c (by omega) (by omega)
        (by omega)
      rw [hv, hstep] at this
      exact this

theorem drawRows_mem (xi yi : Nat) :
    ∀ (rem y : Nat) (s : ImplementationInterface),
      ((drawRows xi yi rem y s).2).memory_ = s.memory_ := by
  intro rem
  induction rem with
  | zero => intro y s; rfl
  | succ r ih =>
    intro y s
    unfold drawRows
    split
    · rfl
    · exact (ih (y + 1) _).trans (drawColumns_mem xi _ _ 8 0 s)

theorem drawRows_readV_ne (xi yi : Nat) :
    ∀ (rem y : Nat) (s : ImplementationInterface) (j : Nat), j ≠ 15 →
      readV ((drawRows xi yi rem y s).2) j = readV s j := by
  intro rem
  induction rem with
  | zero => intro y s j _; rfl
  | succ r ih =>
    intro y s j hj
    unfold drawRows
    split
    · rfl
    · exact (ih (y + 1) _ j hj).trans (drawColumns_readV_ne xi _ _ 8 0 s j hj)

theorem drawRows_I (xi yi : Nat) (rem y : Nat) (s : ImplementationInterface) :
    ((drawRows xi yi rem y s).2).I_ = s.I_ :=
  coreFields_I (drawRows_core xi yi rem y s)

theorem drawColumns_I (xi line yp rem x : Nat) (s : ImplementationInterface) :
    (drawColumns xi line yp rem x s).I_ = s.I_ :=
  coreFields_I (drawColumns_core xi line yp rem x s)

theorem drawRows_fault (xi yi : Nat) :
    ∀ (rem y : Nat) (s : ImplementationInterface),
      4096 - s.I_ < y + rem → y ≤ 4096 - s.I_ →
      (drawRows xi yi rem y s).1 = .kInvalidSpriteLocation := by
  intro rem
  induction rem with
  | zero => intro y s h1 h2; omega
  | succ r ih =>
    intro y s h1 h2
    unfold drawRows
    split
    · rfl
    · rename_i hin
      have hIy : s.I_ + y < 4096 := by omega
      have hI : (drawColumns xi (readMem s (s.I_ + y)) ((readV s yi + y) % 32) 8 0 s).I_ = s.I_ :=
        drawColumns_I _ _ _ 8 0 s
      refine ih (y + 1) _ ?_ ?_
      · rw [hI]; omega
      · rw [hI]; omega

theorem drawRows_fb_off (xi yi : Nat) (hxi : xi ≠ 15) (hyi : yi ≠ 15) :
    ∀ (rem y : Nat) (s : ImplementationInterface) (q : Nat),
      (∀ j c, y ≤ j → j < y + rem → s.I_ + j < 4096 → c < 8 →
        q ≠ ((readV s yi + j) % 32) * 64 + ((readV s xi + c) % 64)) →
      readFB ((drawRows xi yi rem y s).2) q = readFB s q := by
  intro rem
  induction rem with
  | zero => intro y s q _; rfl
  | succ r ih =>
    intro y s q hq
    unfold drawRows
    split
    · rfl
    · rename_i hin
      have hIy : s.I_ + y < 4096 := by omega
      set s2 := drawColumns xi (readMem s (s.I_ + y)) ((readV s yi + y) % 32) 8 0 s with hs2
      have hvx : readV s2 xi = readV s xi := drawColumns_readV_ne xi _ _ 8 0 s xi hxi
      have hvy : readV s2 yi = readV s yi := drawColumns_readV_ne xi _ _ 8 0 s yi hyi
      have hI : s2.I_ = s.I_ := drawColumns_I _ _ _ 8 0 s
      have h1 : readFB ((drawRows xi yi r (y + 1) s2).2) q = readFB s2 q := by
        refine ih (y + 1) s2 q ?_
        intro j c hj1 hj2 hj3 hc
        rw [hvx, hvy]
        exact hq j c (by omega) (by omega) (by rw [hI] at hj3; omega) hc
      have h2 : readFB s2 q = readFB s q := by
        refine drawColumns_fb_ne xi _ _ hxi 8 0 s q ?_
        intro c hc1 hc2
        exact hq y c (by omega) (by omega) hIy (by omega)
      exact h1.trans h2

theorem drawRows_fb_act (xi yi : Nat) (hxi : xi ≠ 15) (hyi : yi ≠ 15) :
    ∀ (rem y : Nat) (s : ImplementationInterface) (j c : Nat),
      y ≤ j → j < y + rem → y + rem ≤ 32 → s.I_ + j < 4096 → c < 8 →
      readFB ((drawRows xi yi rem y s).2)
          (((readV s yi + j) % 32) * 64 + ((readV s xi + c) % 64)) =
        (if readMem s (s.I_ + j) &&& (0x80 >>> c) ≠ 0 then
          (if readFB s (((readV s yi + j) % 32) * 64 + ((readV s xi + c) % 64)) = kWhite
           then kBlack else kWhite)
         else readFB s (((readV s yi + j) % 32) * 64 + ((readV s xi + c) % 64))) := by
  intro rem
  induction rem with
  | zero => intro y s j c h1 h2 _ _ _; omega
  | succ r ih =>
    intro y s j c h1 h2 h3 h4 h5
    have hIy : s.I_ + y < 4096 := by omega
    unfold drawRows
    rw [if_neg (by omega)]
    set s2 := drawColumns xi (readMem s (s.I_ + y)) ((readV s yi + y) % 32) 8 0 s with hs2
    have hvx : readV s2 xi = readV s xi := drawColumns_readV_ne xi _ _ 8 0 s xi hxi
    have hvy : readV s2 yi = readV s yi := drawColumns_readV_ne xi _ _ 8 0 s yi hyi
    have hI : s2.I_ = s.I_ := drawColumns_I _ _ _ 8 0 s
    have hmem : s2.memory_ = s.memory_ := drawColumns_mem xi _ _ 8 0 s
    rcases Nat.eq_or_lt_of_le h1 with hjy | hjy
    · subst hjy
      have hrow : readFB s2 (((readV s yi + y) % 32) * 64 + ((readV s xi + c) % 64)) =
          (if readMem s (s.I_ + y) &&& (0x80 >>> c) ≠ 0 then
            (if readFB s (((readV s yi + y) % 32) * 64 + ((readV s xi + c) % 64)) = kWhite
             then kBlack else kWhite)
           else readFB s (((readV s yi + y) % 32) * 64 + ((readV s xi + c) % 64))) :=
        drawColumns_fb_act xi (readMem s (s.I_ + y)) ((readV s yi + y) % 32)
          hxi (by omega) 8 0 s c (by omega) (by omega) (by omega)
      have htail : readFB ((drawRows xi yi r (y + 1) s2).2)
          (((readV s yi + y) % 32) * 64 + ((readV s xi + c) % 64)) =
          readFB s2 (((readV s yi + y) % 32) * 64 + ((readV s xi + c) % 64)) := by
        refine drawRows_fb_off xi yi hxi hyi r (y + 1) s2 _ ?_
        intro j2 c2 hj1 hj2 hj3 hc2
        rw [hvx, hvy]
        have hrowne : (readV s yi + y) % 32 ≠ (readV s yi + j2) % 32 := by omega
        omega
      exact htail.trans hrow
    · have hne : ∀ c2, c2 < 8 →
          ((readV s yi + j) % 32) * 64 + ((readV s xi + c) % 64) ≠
          ((readV s yi + y) % 32) * 64 + ((readV s xi + c2) % 64) := by
        intro c2 _
        have hrowne : (readV s yi + j) % 32 ≠ (readV s yi + y) % 32 := by omega
        omega
      have hstep : readFB s2 (((readV s yi + j) % 32) * 64 + ((readV s xi + c) % 64)) =
          readFB s (((readV s yi + j) % 32) * 64 + ((readV s xi + c) % 64)) := by
        refine drawColumns_fb_ne xi _ _ hxi 8 0 s _ ?_
        intro c2 hc1 hc2
        exact hne c2 (by omega)
      have := ih (y + 1) s2 j c (by omega) (by omega) (by omega)
        (by rw [hI]; omega) h5
      rw [hvx, hvy, hI, hstep, readMem_congr hmem] at this
      exact this

/-- C9: for a draw-sprite instruction whose row count `nibble` overruns
the memory bound (some row offset `I_ + j` reaches 4096), the step returns
`kInvalidSpriteLocation`; every row `j` with `I_ + j` in bounds has
already been XORed into the framebuffer at the pixels
`((Vy + j) % 32, (Vx + c) % 64)` (a sprite bit flips a white pixel to
black and vice versa; a clear bit leaves the pixel alone), and the pixels
of the out-of-bounds rows `j` with `4096 - I_ ≤ j < nibble` are left
unmodified.  The bound check is per-row, before the row's byte is read.
Stated for coordinate registers distinct from the flag register `VF`,
which the handler zeroes before drawing. -/
theorem draw_sprite_row_bound_check (rand : Nat) (s : ImplementationInterface)
    (hh : s.halted_until_key_press_ = false)
    (hg : (FetchAndDecodeInstruction s).group_ = 0xD)
    (hx : (FetchAndDecodeInstruction s).x_ ≠ 15)
    (hy : (FetchAndDecodeInstruction s).y_ ≠ 15)
    (hk : 4096 - s.I_ < (FetchAndDecodeInstruction s).nibble_) :
    (InterpreterImplementation.Step rand s).1 = StepResult.kInvalidSpriteLocation ∧
    (∀ j c, j < 4096 - s.I_ → c < 8 →
      readFB (InterpreterImplementation.Step rand s).2
          (((readV s (FetchAndDecodeInstruction s).y_ + j) % 32) * 64 +
           ((readV s (FetchAndDecodeInstruction s).x_ + c) % 64)) =
        (if readMem s (s.I_ + j) &&& (0x80 >>> c) ≠ 0 then
          (if readFB s
              (((readV s (FetchAndDecodeInstruction s).y_ + j) % 32) * 64 +
               ((readV s (FetchAndDecodeInstruction s).x_ + c) % 64)) = kWhite
           then kBlack else kWhite)
         else readFB s
            (((readV s (FetchAndDecodeInstruction s).y_ + j) % 32) * 64 +
             ((readV s (FetchAndDecodeInstruction s).x_ + c) % 64)))) ∧
    (∀ j c, 4096 - s.I_ ≤ j → j < (FetchAndDecodeInstruction s).nibble_ → c < 8 →
      readFB (InterpreterImplementation.Step rand s).2
          (((readV s (FetchAndDecodeInstruction s).y_ + j) % 32) * 64 +
           ((readV s (FetchAndDecodeInstruction s).x_ + c) % 64)) =
        readFB s
          (((readV s (FetchAndDecodeInstruction s).y_ + j) % 32) * 64 +
           ((readV s (FetchAndDecodeInstruction s).x_ + c) % 64))) := by
  set i := FetchAndDecodeInstruction s with hi
  have hnib : i.nibble_ < 16 := nibble_lt16 _
  have hs0I : (writeV s 15 0).I_ = s.I_ := rfl
  have hvx0 : readV (writeV s 15 0) i.x_ = readV s i.x_ := readV_writeV_ne s 15 0 i.x_ hx
  have hvy0 : readV (writeV s 15 0) i.y_ = readV s i.y_ := readV_writeV_ne s 15 0 i.y_ hy
  have hm0 : ∀ a, readMem (writeV s 15 0) a = readMem s a := fun _ => rfl
  have hf0 : ∀ p, readFB (writeV s 15 0) p = readFB s p := fun _ => rfl
  have hd : dispatch rand s = execDraw i s := exec_groupD rand i s hg
  have hfault : (drawRows i.x_ i.y_ i.nibble_ 0 (writeV s 15 0)).1 =
      StepResult.kInvalidSpriteLocation := by
    refine drawRows_fault i.x_ i.y_ i.nibble_ 0 (writeV s 15 0) ?_ ?_ <;>
      rw [hs0I] <;> omega
  have hres : (dispatch rand s).1 = StepResult.kInvalidSpriteLocation := by
    rw [hd]; exact hfault
  have hns : ¬((dispatch rand s).1 = StepResult.kSuccess ∨
      (dispatch rand s).1 = StepResult.kHaltUntilKeyPress) := by
    rw [hres]
    rintro (h | h) <;> exact StepResult.noConfusion h
  have hres1 : (InterpreterImplementation.Step rand s).1 =
      StepResult.kInvalidSpriteLocation := by
    unfold InterpreterImplementation.Step
    rw [if_neg (by simp [hh]), if_neg hns]
    exact hres
  have hstate : (InterpreterImplementation.Step rand s).2 =
      (drawRows i.x_ i.y_ i.nibble_ 0 (writeV s 15 0)).2 := by
    unfold InterpreterImplementation.Step
    rw [if_neg (by simp [hh]), if_neg hns]
    show (dispatch rand s).2.2 = _
    rw [hd]
    rfl
  refine ⟨hres1, ?_, ?_⟩
  · intro j c hj hc
    have hact := drawRows_fb_act i.x_ i.y_ hx hy i.nibble_ 0 (writeV s 15 0) j c
      (Nat.zero_le j) (by omega) (by omega) (by rw [hs0I]; omega) hc
    rw [hvx0, hvy0, hs0I, hm0, hf0] at hact
    rw [hstate]
    exact hact
  · intro j c hj1 hj2 hc
    have hoff := drawRows_fb_off i.x_ i.y_ hx hy i.nibble_ 0 (writeV s 15 0)
      (((readV s i.y_ + j) % 32) * 64 + ((readV s i.x_ + c) % 64)) ?_
    · rw [hstate]
      exact hoff.trans (hf0 _)
    · intro j2 c2 hj2a hj2b hI2 hc2
      rw [hvx0, hvy0]
      rw [hs0I] at hI2
      have hrow : (readV s i.y_ + j) % 32 ≠ (readV s i.y_ + j2) % 32 := by omega
      omega

/-- The claim theorem applied to a concrete machine: a reset engine with
`DRW V0, V1, 8` at 0x200, `I_ = 4090` and a six-byte sprite: rows 0..5
are in bounds, row 6 would read address 4096, and the step faults with
`kInvalidSpriteLocation`. -/
theorem draw_sprite_row_bound_check_witness :
    drawFaultVM.halted_until_key_press_ = false ∧
    (FetchAndDecodeInstruction drawFaultVM).group_ = 0xD ∧
    (FetchAndDecodeInstruction drawFaultVM).x_ ≠ 15 ∧
    (FetchAndDecodeInstruction drawFaultVM).y_ ≠ 15 ∧
    4096 - drawFaultVM.I_ < (FetchAndDecodeInstruction drawFaultVM).nibble_ ∧
    (InterpreterImplementation.Step 0 drawFaultVM).1 =
      StepResult.kInvalidSpriteLocation :=
  ⟨by decide, by decide, by decide, by decide, by decide,
   (draw_sprite_row_bound_check 0 drawFaultVM (by decide) (by decide) (by decide)
     (by decide) (by decide)).1⟩

/-- C1: on a program-counter match, `VMInstance::Step` returns
`kBreakpointReached` without advancing the engine, but the erasure
polarity is inverted with respect to the claim and the enum's own
documentation: the matched breakpoint is erased exactly when the stored
flag's underlying value is nonzero (`if ((*bp_found).second)`), and
`kClearAfterTrigger` is the enumerator with value 0 — so a
clear-after-trigger breakpoint stays in the collection and a preserve
breakpoint is removed. -/
theorem breakpoint_clear_flag_polarity :
    (VMInstance.Step 0 bpClearVM).1 = StepResult.kBreakpointReached ∧
    (VMInstance.Step 0 bpClearVM).2.impl_.program_counter_ = 0x200 ∧
    (VMInstance.Step 0 bpClearVM).2.breakpoints_ =
      [(0x200, BreakpointFlags.kClearAfterTrigger)] ∧
    (VMInstance.Step 0 bpPreserveVM).1 = StepResult.kBreakpointReached ∧
    (VMInstance.Step 0 bpPreserveVM).2.impl_.program_counter_ = 0x200 ∧
    (VMInstance.Step 0 bpPreserveVM).2.breakpoints_ = [] := by
  exact ⟨rfl, by decide, by decide, rfl, by decide, by decide⟩

/-- C3: the register-to-memory bulk copy has no bound check at all: with
`I_ = 4095` the instruction `LD [I], V1` touches addresses 4095 and 4096,
yet the step returns `kSuccess` (not a fault), the program counter
advances, and `memory_[4095]` (previously 0) is overwritten with `V0 = 7`;
the touch of index 4096 runs past the end of the array in the source. -/
theorem bulk_copy_unchecked_bound :
    readMem bulkCopyVM 4095 = 0 ∧
    (InterpreterImplementation.Step 0 bulkCopyVM).1 = StepResult.kSuccess ∧
    (InterpreterImplementation.Step 0 bulkCopyVM).2.program_counter_ = 0x202 ∧
    readMem (InterpreterImplementation.Step 0 bulkCopyVM).2 4095 = 7 := by
  exact ⟨by decide, by decide, by decide, by decide⟩

/-- C5: the two bytes at `program_counter_ + 2 = 0x202` hold `CALL 0x345`
(0x23 0x45), so the claim expects the one-shot breakpoint at the call's
target plus one instruction length, 0x347; but `PrepareForStepOver`
decodes the numeric address value 0x202 itself (whose group nibble is 0,
never the call group), so the breakpoint lands at 0x202 instead. -/
theorem step_over_decodes_address_value :
    readMem stepOverVM.impl_ (stepOverVM.impl_.program_counter_ + 2) = 0x23 ∧
    readMem stepOverVM.impl_ (stepOverVM.impl_.program_counter_ + 3) = 0x45 ∧
    (Instruction.ofValue (stepOverVM.impl_.program_counter_ + 2)).group_ = 0x0 ∧
    (stepOverVM.PrepareForStepOver).1 = StepResult.kSuccess ∧
    (stepOverVM.PrepareForStepOver).2.breakpoints_ =
      [(0x202, BreakpointFlags.kPreserve)] := by
  exact ⟨by decide, by decide, by decide, rfl, by decide⟩

/-- C4 counterexample: with the timing configured to 120 instructions per
second the claimed cadence divisor is `round(120 / 60) = 2`, so two
consecutive steps should decrement the delay timer once; but `CheckTimers`
divides by the hard-coded constant 8 regardless of `SetTiming`, and the
timer set to 5 is still 5 after two steps. -/
theorem timer_cadence_not_recomputed :
    timing120VM.instructions_per_sec_ = 120 ∧
    timing120VM.impl_.delay_timer_ = 5 ∧
    (VMInstance.Step 0 (VMInstance.Step 0 timing120VM).2).2.impl_.delay_timer_ =
      5 := by
  exact ⟨by decide, by decide, by decide⟩

/-- C6 counterexample: `JP 0x200` stored at 0x200 returns `kSuccess`, yet
the program counter is unchanged — so "leaves the program counter
unchanged exactly when it returns a fault outcome" fails in the
success-to-unchanged direction. -/
theorem self_jump_success_pc_unchanged :
    selfJumpVM.program_counter_ = 0x200 ∧
    (InterpreterImplementation.Step 0 selfJumpVM).1 = StepResult.kSuccess ∧
    (InterpreterImplementation.Step 0 selfJumpVM).2.program_counter_ = 0x200 := by
  exact ⟨by decide, by decide, by decide⟩

/-- C10: one engine step from the reset state loaded with `JP 0xFFF`
returns `kSuccess` and leaves the program counter at 4095 — above the
4094 bound the claim asserts and above what `SetProgramCounter` itself
accepts — so the next two-byte fetch would read `memory_[4096]` out of
bounds. -/
theorem jump_exceeds_pc_bound :
    (InterpreterImplementation.Step 0 jumpHighVM).1 = StepResult.kSuccess ∧
    (InterpreterImplementation.Step 0 jumpHighVM).2.program_counter_ = 4095 ∧
    ¬(InterpreterImplementation.Step 0 jumpHighVM).2.program_counter_ ≤ 4094 ∧
    (SetProgramCounter jumpHighVM 4095).1 = false := by
  exact ⟨by decide, by decide, by decide, by decide⟩

end chip8
